import Mathlib

/-!
Verification development for the OpenPrint3D profile tooling
(`tools/import_prusaslicer.py`, `tools/convert_profile.py`,
`tools/compare_profiles.py`).

The Python code manipulates JSON-like nested dictionaries.  We embed those
values shallowly: Python `int`/`float` are kept apart, dictionaries are
insertion-ordered association lists, and raised exceptions become an
explicit error type.  Every float these tools produce is an exact decimal
(parsed decimal literals combined by `+`/`-`/`max`/`min`), so floats are
modelled as normalized decimals `man / 10 ^ exp` — exact, and executable
inside the kernel.
-/

set_option maxRecDepth 8000

/-- A Python float as an exact decimal `man / 10 ^ exp`.  All floats the
modelled tools create are decimals, and the operations they apply
(`+`, `-`, `max`, `min`, comparison) stay inside the decimals. -/
structure Dec where
  man : Int
  exp : Nat
deriving DecidableEq, Repr

/-- Canonical form: divide out trailing factors of ten (`⟨2500, 1⟩ ↦ ⟨250, 0⟩`),
so that equal decimal values have equal representations. -/
def decNorm : Int → Nat → Dec
  | m, 0 => ⟨m, 0⟩
  | m, k+1 => if m % 10 = 0 then decNorm (m / 10) k else ⟨m, k+1⟩

/-- Exact decimal addition. -/
def decAdd (a b : Dec) : Dec :=
  let k := max a.exp b.exp
  decNorm (a.man * 10 ^ (k - a.exp) + b.man * 10 ^ (k - b.exp)) k

/-- Negation (preserves canonicity). -/
def decNeg (a : Dec) : Dec := ⟨-a.man, a.exp⟩

/-- Exact decimal subtraction. -/
def decSub (a b : Dec) : Dec := decAdd a (decNeg b)

/-- Value comparison `a < b`. -/
def decLt (a b : Dec) : Bool := a.man * 10 ^ b.exp < b.man * 10 ^ a.exp

/-- Value equality (on canonical forms this coincides with `=`). -/
def decEqv (a b : Dec) : Bool := a.man * 10 ^ b.exp = b.man * 10 ^ a.exp

/-- The rational value of a decimal — used only to state properties. -/
def Dec.toRat (d : Dec) : ℚ := (d.man : ℚ) / (10 : ℚ) ^ d.exp

/-- The integer `n` as a Python float. -/
def decOfInt (n : Int) : Dec := ⟨n, 0⟩

/-- Keys of a Python dictionary as used by the tools: JSON objects carry
string keys, and the path setter can additionally store integer keys. -/
inductive PyKey where
  | ks : String → PyKey
  | ki : Int → PyKey
deriving DecidableEq, Repr

/-- Shallow embedding of the Python values flowing through the tools. -/
inductive JVal where
  | vnull : JVal
  | vbool : Bool → JVal
  | vint : Int → JVal
  | vfloat : Dec → JVal
  | vstr : String → JVal
  | vlist : List JVal → JVal
  | vdict : List (PyKey × JVal) → JVal
deriving Repr

abbrev Fields := List (PyKey × JVal)

mutual

/-- Structural (Lean-level) equality test on embedded values, used to build
the `DecidableEq` instance for the nested inductive. -/
def jvalBeq : JVal → JVal → Bool
  | .vnull, .vnull => true
  | .vbool a, .vbool b => a == b
  | .vint a, .vint b => a == b
  | .vfloat a, .vfloat b => a == b
  | .vstr a, .vstr b => a == b
  | .vlist a, .vlist b => jlistBeq a b
  | .vdict a, .vdict b => jfieldsBeq a b
  | _, _ => false

def jlistBeq : List JVal → List JVal → Bool
  | [], [] => true
  | a :: as, b :: bs => jvalBeq a b && jlistBeq as bs
  | _, _ => false

def jfieldsBeq : Fields → Fields → Bool
  | [], [] => true
  | (k1, v1) :: as, (k2, v2) :: bs => k1 == k2 && jvalBeq v1 v2 && jfieldsBeq as bs
  | _, _ => false

end

theorem jvalBeq_iff_all :
    ∀ n : Nat,
      (∀ a b : JVal, sizeOf a ≤ n → (jvalBeq a b = true ↔ a = b)) ∧
      (∀ xs ys : List JVal, sizeOf xs ≤ n → (jlistBeq xs ys = true ↔ xs = ys)) ∧
      (∀ fs gs : Fields, sizeOf fs ≤ n → (jfieldsBeq fs gs = true ↔ fs = gs)) := by
  intro n
  induction n with
  | zero =>
    refine ⟨fun a b h => ?_, fun xs ys h => ?_, fun fs gs h => ?_⟩
    · exfalso; cases a <;> simp_arith at h
    · exfalso; cases xs <;> simp_arith at h
    · exfalso; cases fs <;> simp_arith at h
  | succ n ih =>
    obtain ⟨ihv, ihl, ihf⟩ := ih
    refine ⟨fun a b h => ?_, fun xs ys h => ?_, fun fs gs h => ?_⟩
    · cases a with
      | vnull => cases b <;> simp [jvalBeq]
      | vbool x => cases b <;> simp [jvalBeq]
      | vint x => cases b <;> simp [jvalBeq]
      | vfloat x => cases b <;> simp [jvalBeq]
      | vstr x => cases b <;> simp [jvalBeq]
      | vlist x =>
        have hx : sizeOf x ≤ n := by simp_arith at h; omega
        cases b <;> simp [jvalBeq, ihl x _ hx]
      | vdict x =>
        have hx : sizeOf x ≤ n := by simp_arith at h; omega
        cases b <;> simp [jvalBeq, ihf x _ hx]
    · cases xs with
      | nil => cases ys <;> simp [jlistBeq]
      | cons a as =>
        cases ys with
        | nil => simp [jlistBeq]
        | cons b bs =>
          have ha : sizeOf a ≤ n := by simp_arith at h; omega
          have has : sizeOf as ≤ n := by simp_arith at h; omega
          simp [jlistBeq, ihv a b ha, ihl as bs has]
    · cases fs with
      | nil => cases gs <;> simp [jfieldsBeq]
      | cons kv as =>
        cases gs with
        | nil => simp [jfieldsBeq]
        | cons kw bs =>
          obtain ⟨k1, v1⟩ := kv
          obtain ⟨k2, v2⟩ := kw
          have hv : sizeOf v1 ≤ n := by simp_arith at h; omega
          have has : sizeOf as ≤ n := by simp_arith at h; omega
          simp [jfieldsBeq, ihv v1 v2 hv, ihf as bs has, and_assoc]

instance : DecidableEq JVal := fun a b =>
  if h : jvalBeq a b = true then
    isTrue (((jvalBeq_iff_all (sizeOf a)).1 a b le_rfl).mp h)
  else
    isFalse (fun he => h (((jvalBeq_iff_all (sizeOf a)).1 a b le_rfl).mpr he))

/-- Exceptions the modelled code can raise. -/
inductive PErr where
  | typeError
  | valueError
  | indexError
  | keyError
  | attrError
deriving DecidableEq, Repr

instance {e a : Type} [DecidableEq e] [DecidableEq a] : DecidableEq (Except e a) := fun x y =>
  match x, y with
  | .ok v, .ok w => if h : v = w then isTrue (by rw [h]) else isFalse (by simp [h])
  | .error v, .error w => if h : v = w then isTrue (by rw [h]) else isFalse (by simp [h])
  | .ok _, .error _ => isFalse (by simp)
  | .error _, .ok _ => isFalse (by simp)

/-- First-match lookup in an association list (Python `d[k]` / `d.get(k)`). -/
def alGet {κ : Type} [DecidableEq κ] : List (κ × JVal) → κ → Option JVal
  | [], _ => none
  | (k1, v) :: rest, k => if k1 = k then some v else alGet rest k

/-- Lookup with a default (Python `d.get(k, default)`). -/
def alGetD {κ : Type} [DecidableEq κ] (l : List (κ × JVal)) (k : κ) (d : JVal) : JVal :=
  (alGet l k).getD d

/-- Python `d[k] = v`: update in place preserving insertion order, else append. -/
def alSet {κ : Type} [DecidableEq κ] : List (κ × JVal) → κ → JVal → List (κ × JVal)
  | [], k, v => [(k, v)]
  | (k1, v1) :: rest, k, v =>
    if k1 = k then (k, v) :: rest else (k1, v1) :: alSet rest k v

/-- Numeric value of a Python number for `==` purposes (`bool` is an `int`
subclass, so `True == 1` and `50 == 50.0` hold). -/
def pyNum : JVal → Option Dec
  | .vint n => some (decOfInt n)
  | .vfloat d => some d
  | .vbool b => some (decOfInt (if b then 1 else 0))
  | _ => none

mutual

/-- Python `==` on the embedded values: structural on containers, string
equality on strings, numeric-value equality across `int`/`float`/`bool`. -/
def pyEq : JVal → JVal → Bool
  | .vnull, .vnull => true
  | .vstr a, .vstr b => a = b
  | .vlist a, .vlist b => pyEqL a b
  | .vdict a, .vdict b =>
    a.all (fun kv => (alGet b kv.1).isSome) &&
    b.all (fun kv => (alGet a kv.1).isSome) &&
    pyEqF a b
  | a, b =>
    match pyNum a, pyNum b with
    | some x, some y => decEqv x y
    | _, _ => false

def pyEqL : List JVal → List JVal → Bool
  | [], [] => true
  | a :: as, b :: bs => pyEq a b && pyEqL as bs
  | _, _ => false

def pyEqF : Fields → Fields → Bool
  | [], _ => true
  | (k, v) :: rest, b =>
    (match alGet b k with
     | some w => pyEq v w
     | none => false) && pyEqF rest b

end

/-- Python truthiness of the embedded values. -/
def pyTruthy : JVal → Bool
  | .vnull => false
  | .vbool b => b
  | .vint n => n ≠ 0
  | .vfloat d => d.man ≠ 0
  | .vstr s => s ≠ ""
  | .vlist xs => !xs.isEmpty
  | .vdict fs => !fs.isEmpty

/-! ### Character-list string helpers

Core `String` functions such as `trim`/`splitOn`/`<` are defined by
well-founded recursion over byte positions and do not reduce inside the
kernel, so the Python string primitives are modelled directly on character
lists. -/

/-- Python `s.split(sep)` for a one-character separator (the only form the
tools use: `path.split(".")`).  `"".split(".") == [""]`. -/
def splitChar (sep : Char) : List Char → List (List Char)
  | [] => [[]]
  | c :: rest =>
    let r := splitChar sep rest
    if c = sep then [] :: r
    else
      match r with
      | [] => [[c]]  -- unreachable: splitChar never returns []
      | seg :: segs => (c :: seg) :: segs

/-- Path split on the fixed `.` delimiter, as `path.split(".")`. -/
def pySplitDot (s : String) : List String :=
  (splitChar '.' s.toList).map (fun cs => String.mk cs)

/-- Python `str.strip()` with no argument: remove surrounding whitespace. -/
def pyStrip (cs : List Char) : List Char :=
  ((cs.dropWhile Char.isWhitespace).reverse.dropWhile Char.isWhitespace).reverse

/-- Python `s.replace(old, new)` for a one-character `old` (the only form
the tools use). -/
def pyReplaceChar (old : Char) (new : List Char) (cs : List Char) : List Char :=
  cs.flatMap (fun c => if c = old then new else [c])

/-- Python `s.replace(old, new)` on strings, one-character `old`. -/
def pyReplace (s : String) (old : Char) (new : String) : String :=
  String.mk (pyReplaceChar old new.toList s.toList)

/-- Python `str.lower()` (ASCII range, all the tools need). -/
def pyLower (s : String) : String := String.mk (s.toList.map Char.toLower)

/-- Python `str.upper()` (ASCII range). -/
def pyUpper (s : String) : String := String.mk (s.toList.map Char.toUpper)

/-- Lexicographic comparison by code point, Python `str.__lt__`. -/
def charListLt : List Char → List Char → Bool
  | [], [] => false
  | [], _ :: _ => true
  | _ :: _, [] => false
  | a :: as, b :: bs =>
    a.toNat < b.toNat || (a.toNat = b.toNat && charListLt as bs)

/-- Python `a < b` on strings. -/
def strLtB (a b : String) : Bool := charListLt a.toList b.toList

/-- Value of a string of decimal digits. -/
def digitsVal (cs : List Char) : Nat :=
  cs.foldl (fun a c => a * 10 + (c.toNat - 48)) 0

/-- Python `str.isdigit` for the ASCII strings the tools handle. -/
def sIsDigit (s : String) : Bool := !s.toList.isEmpty && s.toList.all Char.isDigit

/-- The optional sign prefix of a numeric literal: the sign factor together
with the remaining characters. -/
def pySign : List Char → Int × List Char
  | [] => (1, [])
  | c :: r => if c = '+' then (1, r) else if c = '-' then (-1, r) else (1, c :: r)

/-- Python `float(str)`: optional surrounding whitespace, sign, decimal
digits with optional fraction and exponent.  (`inf`/`nan` and `_` digit
separators are never fed to it by this code base and are not modelled.) -/
def pyFloat (s : String) : Option Dec :=
  let cs := pyStrip s.toList
  let sgncs := pySign cs
  let sgn := sgncs.1
  let cs1 := sgncs.2
  let ip := cs1.takeWhile Char.isDigit
  let rest := cs1.dropWhile Char.isDigit
  let fprest : List Char × List Char :=
    match rest with
    | '.' :: r => (r.takeWhile Char.isDigit, r.dropWhile Char.isDigit)
    | r => ([], r)
  let fp := fprest.1
  let rest2 := fprest.2
  -- "5", "5.", ".5", "5.5" are valid; "", ".", "x" are not
  if ip.isEmpty && fp.isEmpty then none
  else
    let man : Int := sgn * (digitsVal (ip ++ fp) : Int)
    let k := fp.length
    match rest2 with
    | [] => some (decNorm man k)
    | e :: r =>
      if e == 'e' || e == 'E' then
        let esr : Bool × List Char :=
          match r with
          | '+' :: t => (false, t)
          | '-' :: t => (true, t)
          | t => (false, t)
        let ed := esr.2.takeWhile Char.isDigit
        let r3 := esr.2.dropWhile Char.isDigit
        if ed.isEmpty || !r3.isEmpty then none
        else if esr.1 then some (decNorm man (k + digitsVal ed))
        else some (decNorm (man * 10 ^ digitsVal ed) k)
      else none

/-- Python `int(str)`: optional whitespace, sign, decimal digits only. -/
def pyInt (s : String) : Option Int :=
  let cs := pyStrip s.toList
  let sgncs := pySign cs
  if sgncs.2.isEmpty || !(sgncs.2.all Char.isDigit) then none
  else some (sgncs.1 * (digitsVal sgncs.2 : Int))

/-- Model of `while len(d) <= key: d.append({})` — pad a list with empty dicts so
that index `k` exists. -/
def padTo (xs : List JVal) (k : Nat) : List JVal :=
  xs ++ List.replicate (k + 1 - xs.length) (.vdict [])

/-- Worker of `set_nested` over the already-split path segments.  Returns
the updated container together with the exception raised, if any (the
container reflects all mutations performed before the exception).

Faithfulness notes, mirroring `import_prusaslicer.set_nested`:
* a digit segment over a non-list rebinds the local `d` to a fresh list, so
  every later mutation lands in a disconnected structure: the original
  container is returned unchanged and no exception escapes (the rest of the
  traversal only ever touches freshly created dicts/lists, which cannot
  raise);
* a non-digit segment over any non-dict raises `TypeError` (scalar/str/list
  membership or item assignment);
* a digit final segment assigns `d[int(seg)]` directly: on a list this
  raises `IndexError` when the index is out of range, on a dict it stores
  under the integer key. -/
def setGo : JVal → List String → JVal → JVal × Option PErr
  | d, [], _ => (d, none)  -- unreachable: a split path is never empty
  | d, [last], v =>
    if sIsDigit last then
      let k := digitsVal last.toList
      match d with
      | .vlist xs =>
        if k < xs.length then (.vlist (xs.set k v), none)
        else (.vlist xs, some .indexError)
      | .vdict fs => (.vdict (alSet fs (.ki (k : Int)) v), none)
      | _ => (d, some .typeError)
    else
      match d with
      | .vdict fs => (.vdict (alSet fs (.ks last) v), none)
      | _ => (d, some .typeError)
  | d, key :: rest, v =>
    if sIsDigit key then
      let k := digitsVal key.toList
      match d with
      | .vlist xs =>
        let xs2 := padTo xs k
        let r := setGo (xs2.getD k (.vdict [])) rest v
        (.vlist (xs2.set k r.1), r.2)
      | _ => (d, none)  -- disconnected fresh list: write silently lost
    else
      match d with
      | .vdict fs =>
        match alGet fs (.ks key) with
        | some child =>
          let r := setGo child rest v
          (.vdict (alSet fs (.ks key) r.1), r.2)
        | none =>
          let r := setGo (.vdict []) rest v
          (.vdict (alSet fs (.ks key) r.1), r.2)
      | _ => (d, some .typeError)

/-- Model of `import_prusaslicer.set_nested`, with the raised exception made
explicit in the result. -/
def set_nested (d : JVal) (path : String) (v : JVal) : JVal × Option PErr :=
  setGo d (pySplitDot path) v

/-- Modelled from the spec: section 4.1's `get(container, path)` — digit
segments index lists, other segments index mappings; the source modules have
no standalone getter, and this definition is used only to phrase properties. -/
def getSeg : JVal → List String → Option JVal
  | v, [] => some v
  | .vdict fs, k :: r =>
    match alGet fs (.ks k) with
    | some c => getSeg c r
    | none => none
  | .vlist xs, k :: r =>
    if sIsDigit k then
      match xs.get? (digitsVal k.toList) with
      | some c => getSeg c r
      | none => none
    else none
  | _, _ :: _ => none

/-- Path read, splitting on the fixed `.` delimiter. -/
def getPath (v : JVal) (path : String) : Option JVal :=
  getSeg v (pySplitDot path)

/-- Path read through an `Except` result (`none` when the computation
raised). -/
def okPath (r : Except PErr JVal) (path : String) : Option JVal :=
  match r with
  | .ok v => getPath v path
  | .error _ => none

example : pyFloat "0.4" = some ⟨4, 1⟩ := by decide
example : pyFloat "250" = some ⟨250, 0⟩ := by decide
example : pyFloat "warm" = none := by decide
example : pyFloat " 235.0 " = some ⟨235, 0⟩ := by decide
example : pyFloat "1e-2" = some ⟨1, 2⟩ := by decide
example : pyFloat "1.75" = some ⟨175, 2⟩ := by decide
example : pyInt "3" = some 3 := by decide
example : pyInt "0.4" = none := by decide
example : pySplitDot "a.0.c" = ["a", "0", "c"] := by decide
example : pySplitDot "" = [""] := by decide
example : set_nested (.vdict [(.ks "a", .vint 5)]) "a.0.c" (.vint 42)
    = (.vdict [(.ks "a", .vint 5)], none) := by decide
example : set_nested (.vdict [(.ks "xs", .vlist [])]) "xs.0" (.vint 1)
    = (.vdict [(.ks "xs", .vlist [])], some .indexError) := by decide
example : pyEq (.vint 50) (.vfloat ⟨50, 0⟩) = true := by decide
example : pyEq (.vstr "50") (.vint 50) = false := by decide
example : strLtB "abc" "abd" = true := by decide

/-! ### Mapping tables and coercions (`tools/import_prusaslicer.py`) -/

/-- The coercion callables stored in the mapping tables: `str`, `float`,
`int`, and the inline `lambda v: v == "1"`. -/
inductive Coerce where
  | cstr
  | cfloat
  | cint
  | cboolEq1
deriving DecidableEq, Repr

/-- Python `float(s)` raising `ValueError` on failure. -/
def floatE (s : String) : Except PErr Dec :=
  match pyFloat s with
  | some d => .ok d
  | none => .error .valueError

/-- Apply a coercion to a raw string value. -/
def applyCoerce : Coerce → String → Except PErr JVal
  | .cstr, s => .ok (.vstr s)
  | .cfloat, s => (floatE s).map (fun d => .vfloat d)
  | .cint, s =>
    match pyInt s with
    | some n => .ok (.vint n)
    | none => .error .valueError
  | .cboolEq1, s => .ok (.vbool (s == "1"))

/-- Table `PRINTER_MAPPINGS`, in definition order. -/
def PRINTER_MAPPINGS : List (String × String × Coerce) := [
  ("printer_model", "model", .cstr),
  ("printer_make", "manufacturer", .cstr),
  ("printer_variant", "variant", .cstr),
  ("bed_shape", "build_volume.shape", .cstr),
  ("max_print_height", "build_volume.z", .cfloat),
  ("printable_area", "build_volume.dimensions", .cstr),
  ("nozzle_diameter", "extruders.0.nozzle_diameter", .cfloat),
  ("min_layer_height", "layer_height.min", .cfloat),
  ("max_layer_height", "layer_height.max", .cfloat),
  ("retract_length", "retraction.distance", .cfloat),
  ("retract_speed", "retraction.speed", .cfloat),
  ("max_print_speed", "speed.max", .cfloat),
  ("machine_max_speed_x", "axes.x.max_speed", .cfloat),
  ("machine_max_speed_y", "axes.y.max_speed", .cfloat),
  ("machine_max_speed_z", "axes.z.max_speed", .cfloat),
  ("machine_max_acceleration_x", "axes.x.max_accel", .cfloat),
  ("machine_max_acceleration_y", "axes.y.max_accel", .cfloat),
  ("machine_max_acceleration_z", "axes.z.max_accel", .cfloat),
  ("printer_notes", "notes", .cstr)]

/-- Table `FILAMENT_MAPPINGS`, in definition order. -/
def FILAMENT_MAPPINGS : List (String × String × Coerce) := [
  ("filament_type", "material", .cstr),
  ("filament_vendor", "brand", .cstr),
  ("filament_colour", "color", .cstr),
  ("filament_diameter", "diameter", .cfloat),
  ("filament_density", "density", .cfloat),
  ("temperature", "nozzle.recommended", .cfloat),
  ("first_layer_temperature", "nozzle.first_layer", .cfloat),
  ("bed_temperature", "bed.recommended", .cfloat),
  ("first_layer_bed_temperature", "bed.first_layer", .cfloat),
  ("fan_min_speed", "fan.min", .cfloat),
  ("fan_max_speed", "fan.max", .cfloat),
  ("bridge_fan_speed", "fan.bridge", .cfloat),
  ("disable_fan_first_layers", "fan.disable_first_layers", .cint),
  ("min_print_speed", "printing_speed.min", .cfloat),
  ("max_print_speed", "printing_speed.max", .cfloat),
  ("filament_max_volumetric_speed", "volumetric_speed", .cfloat),
  ("filament_notes", "notes", .cstr),
  ("filament_cost", "cost", .cfloat),
  ("filament_spool_weight", "spool_weight", .cfloat)]

/-- Table `MATERIAL_MAP`. -/
def MATERIAL_MAP : List (String × String) := [
  ("pla", "PLA"), ("pet", "PETG"), ("petg", "PETG"), ("abs", "ABS"),
  ("asa", "ASA"), ("tpu", "TPU"), ("tpe", "TPE"), ("pa", "PA6"),
  ("nylon", "PA6"), ("pc", "PC"), ("pp", "PP"), ("pva", "PVA"),
  ("hips", "HIPS"), ("pvb", "PVB")]

/-- Table `KINEMATICS_MAP`, in definition order. -/
def KINEMATICS_MAP : List (String × String) := [
  ("cartesian", "cartesian"), ("corexy", "corexy"), ("corexz", "corexz"),
  ("delta", "delta"), ("hybrid_corexy", "hybrid_corexy")]

/-- A parsed INI section: ordered key/value pairs with raw string values
(`configparser` sections cannot contain duplicate keys). -/
def cfgGet : List (String × String) → String → Option String
  | [], _ => none
  | (k1, v) :: rest, k => if k1 = k then some v else cfgGet rest k

/-- Model of `config.get(section, key, fallback=d)`. -/
def cfgGetD (cfg : List (String × String)) (k d : String) : String :=
  (cfgGet cfg k).getD d

/-- One iteration of the mapping loop: look the key up, coerce, write via
`set_nested`.  The `try/except (ValueError, TypeError): pass` keeps the
partially-updated profile; any other exception (e.g. `IndexError` from
`set_nested`) escapes. -/
def applyEntry (cfg : List (String × String)) (prof : JVal)
    (e : String × String × Coerce) : Except PErr JVal :=
  match cfgGet cfg e.1 with
  | none => .ok prof
  | some raw =>
    match applyCoerce e.2.2 raw with
    | .error _ => .ok prof  -- coercions only raise ValueError/TypeError: caught
    | .ok v =>
      match set_nested prof e.2.1 v with
      | (p2, none) => .ok p2
      | (p2, some .valueError) => .ok p2
      | (p2, some .typeError) => .ok p2
      | (_, some err) => .error err

/-- The `for ps_key, (op3d_path, converter) in MAPPINGS.items()` loop. -/
def applyMappings (cfg : List (String × String)) (maps : List (String × String × Coerce))
    (p : JVal) : Except PErr JVal :=
  maps.foldl (fun acc e => acc.bind (fun prof => applyEntry cfg prof e)) (.ok p)

/-- The characters matched by the `[-\d.]` class of
`parse_bed_dimensions`. -/
def bedCls (c : Char) : Bool := c.isDigit || c == '-' || c == '.'

/-- Model of `re.findall(r"[-\d.]+,[-\d.]+", s)`: leftmost, non-overlapping matches,
returned as the two comma-separated runs.  A greedy run of class characters
followed by `,` and a nonempty second run; on failure the scan advances one
character (equivalent to the regex engine retrying at the next start
position, since a shorter first run can never make the `,` appear).  The
fuel is the input length, which the strictly shrinking suffix argument never
exhausts. -/
def scanPairsF : Nat → List Char → List (String × String)
  | 0, _ => []
  | _ + 1, [] => []
  | fuel + 1, c :: rest =>
    if bedCls c then
      let r1 := (c :: rest).takeWhile bedCls
      match rest.dropWhile bedCls with
      | ',' :: r2rest =>
        let r2 := r2rest.takeWhile bedCls
        if r2.isEmpty then scanPairsF fuel rest
        else (String.mk r1, String.mk r2) :: scanPairsF fuel (r2rest.dropWhile bedCls)
      | _ => scanPairsF fuel rest
    else scanPairsF fuel rest

/-- The coordinate-pair matches of `bed_shape`. -/
def scanPairs (cs : List Char) : List (String × String) := scanPairsF cs.length cs

/-- Python `max` over a float list, first maximum kept. -/
def maxD (x : Dec) (xs : List Dec) : Dec :=
  xs.foldl (fun acc d => if decLt acc d then d else acc) x

/-- Python `min` over a float list, first minimum kept. -/
def minD (x : Dec) (xs : List Dec) : Dec :=
  xs.foldl (fun acc d => if decLt d acc then d else acc) x

/-- Model of `import_prusaslicer.parse_bed_dimensions`: the `{"x": …, "y": …}` dict is
returned as the `(x, y)` pair; `float` on a matched run can raise
`ValueError` (e.g. a run of bare `-`/`.` characters), which escapes to the
caller. -/
def parse_bed_dimensions (bedShape : String) : Except PErr (JVal × JVal) :=
  if bedShape = "" then .ok (.vint 200, .vint 200)
  else
    match scanPairs bedShape.toList with
    | [] => .ok (.vint 200, .vint 200)
    | c0 :: cs => do
      let x0 ← floatE c0.1
      let y0 ← floatE c0.2
      let rest ← cs.mapM (fun p => do
        let a ← floatE p.1
        let b ← floatE p.2
        pure (a, b))
      let xs := rest.map Prod.fst
      let ys := rest.map Prod.snd
      pure (.vfloat (decSub (maxD x0 xs) (minD x0 xs)),
            .vfloat (decSub (maxD y0 ys) (minD y0 ys)))

/-- Whether `needle` starts `hay`. -/
def listStartsWith : List Char → List Char → Bool
  | [], _ => true
  | _ :: _, [] => false
  | a :: as, b :: bs => a == b && listStartsWith as bs

/-- Substring containment on character lists. -/
def listIn (needle : List Char) : List Char → Bool
  | [] => needle.isEmpty
  | c :: rest => listStartsWith needle (c :: rest) || listIn needle rest

/-- Python `needle in hay` on strings. -/
def strIn (needle hay : String) : Bool := listIn needle.toList hay.toList

/-- Model of `import_prusaslicer.infer_kinematics`: first `KINEMATICS_MAP` key found
in the lowered `printer_type` or `printer_notes`, else `"cartesian"`. -/
def infer_kinematics (cfg : List (String × String)) : String :=
  let pt := pyLower (cfgGetD cfg "printer_type" "")
  let pn := pyLower (cfgGetD cfg "printer_notes" "")
  match KINEMATICS_MAP.find? (fun kv => strIn kv.1 pt || strIn kv.1 pn) with
  | some kv => kv.2
  | none => "cartesian"

/-- String lookup in `MATERIAL_MAP`-like tables. -/
def strMapGet : List (String × String) → String → Option String
  | [], _ => none
  | (k1, v) :: rest, k => if k1 = k then some v else strMapGet rest k

/-- Model of `import_prusaslicer.normalize_material`. -/
def normalize_material (material : String) : String :=
  let ml := pyReplace (pyReplace (pyLower material) '-' "") '_' ""
  match strMapGet MATERIAL_MAP ml with
  | some m => m
  | none => if material = "" then "PLA" else pyUpper material

/-- The decimal digit character for a remainder below ten. -/
def digitChar (r : Nat) : Char :=
  if r = 0 then '0' else if r = 1 then '1' else if r = 2 then '2'
  else if r = 3 then '3' else if r = 4 then '4' else if r = 5 then '5'
  else if r = 6 then '6' else if r = 7 then '7' else if r = 8 then '8' else '9'

/-- Fuelled base-ten digit printer (most significant digit first); the fuel
bounds the number of digits. -/
def natDigitsAux : Nat → Nat → List Char
  | 0, _ => []
  | fuel + 1, n =>
    if n < 10 then [digitChar n]
    else natDigitsAux fuel (n / 10) ++ [digitChar (n % 10)]

/-- Base-ten digits of a natural number, as Python prints it. -/
def natDigits (n : Nat) : List Char := natDigitsAux (n + 1) n

/-- Python `str()` of the scalar values the tools interpolate into f-strings or
serialize (canonical decimals print exactly as Python floats do). -/
def decRepr (d : Dec) : String :=
  let sgn : List Char := if d.man < 0 then ['-'] else []
  let a := d.man.natAbs
  if d.exp = 0 then String.mk (sgn ++ natDigits a ++ ['.', '0'])
  else
    let p := 10 ^ d.exp
    let fr := natDigits (a % p)
    String.mk (sgn ++ natDigits (a / p) ++
      '.' :: (List.replicate (d.exp - fr.length) '0' ++ fr))

/-- Python `str(v)` for the value shapes the modelled pipelines stringify
(scalars only; containers are never interpolated by the modelled code). -/
def jvalToStr : JVal → String
  | .vstr s => s
  | .vint n => (if n < 0 then "-" else "") ++ String.mk (natDigits n.natAbs)
  | .vfloat d => decRepr d
  | .vbool b => if b then "True" else "False"
  | .vnull => "None"
  | .vlist _ => ""
  | .vdict _ => ""

example : decRepr ⟨4, 1⟩ = "0.4" := by decide
example : decRepr ⟨235, 0⟩ = "235.0" := by decide
example : jvalToStr (.vint 200) = "200" := by decide
example : scanPairs "0x0,250x0,250x250,0x250".toList
    = [("0", "250"), ("0", "250"), ("250", "0")] := by decide
example : normalize_material "PETG" = "PETG" := by decide
example : normalize_material "pet" = "PETG" := by decide
example : infer_kinematics [] = "cartesian" := by decide

/-! ### Importer (`convert_printer`, `convert_filament`) -/

/-- The default printer skeleton built at the top of `convert_printer`. -/
def printerSkeleton : JVal := .vdict [
  (.ks "op3d_schema", .vstr "printer"),
  (.ks "op3d_schema_version", .vstr "0.1.0"),
  (.ks "id", .vstr "Unknown/Unknown"),
  (.ks "maintainer", .vdict [
    (.ks "name", .vstr "Imported from PrusaSlicer"),
    (.ks "maintainer_type", .vstr "community")]),
  (.ks "manufacturer", .vstr "Unknown"),
  (.ks "model", .vstr "Unknown"),
  (.ks "variant", .vstr "Stock"),
  (.ks "build_volume", .vdict [
    (.ks "x", .vint 200), (.ks "y", .vint 200), (.ks "z", .vint 200),
    (.ks "shape", .vstr "rectangular"), (.ks "origin", .vstr "front_left")]),
  (.ks "kinematics", .vstr "cartesian"),
  (.ks "axes", .vdict [
    (.ks "x", .vdict [(.ks "max_speed", .vint 300), (.ks "max_accel", .vint 3000)]),
    (.ks "y", .vdict [(.ks "max_speed", .vint 300), (.ks "max_accel", .vint 3000)]),
    (.ks "z", .vdict [(.ks "max_speed", .vint 12), (.ks "max_accel", .vint 500)])]),
  (.ks "extruders", .vlist [.vdict [
    (.ks "id", .vstr "tool0"),
    (.ks "nozzle_diameter", .vfloat ⟨4, 1⟩),
    (.ks "nozzle_material", .vstr "brass"),
    (.ks "max_temp", .vint 300),
    (.ks "min_temp", .vint 0),
    (.ks "retraction_supported", .vbool true)]]),
  (.ks "bed", .vdict [(.ks "heated", .vbool true), (.ks "max_temp", .vint 120)]),
  (.ks "chamber", .vdict [(.ks "heated", .vbool false), (.ks "passive", .vbool false)]),
  (.ks "firmware", .vdict [(.ks "flavor", .vstr "other")]),
  (.ks "network", .vdict [
    (.ks "has_wifi", .vbool false), (.ks "has_ethernet", .vbool false),
    (.ks "supports_lan_api", .vbool false)]),
  (.ks "external_ids", .vdict []),
  (.ks "links", .vdict []),
  (.ks "tags", .vlist []),
  (.ks "notes", .vstr ""),
  (.ks "x_prusaslicer", .vdict [])]

/-- The default filament skeleton built at the top of `convert_filament`. -/
def filamentSkeleton : JVal := .vdict [
  (.ks "op3d_schema", .vstr "filament"),
  (.ks "op3d_schema_version", .vstr "0.1.0"),
  (.ks "id", .vstr "Unknown/Unknown"),
  (.ks "maintainer", .vdict [
    (.ks "name", .vstr "Imported from PrusaSlicer"),
    (.ks "maintainer_type", .vstr "community")]),
  (.ks "brand", .vstr "Unknown"),
  (.ks "name", .vstr "Unknown"),
  (.ks "material", .vstr "PLA"),
  (.ks "diameter", .vfloat ⟨175, 2⟩),
  (.ks "nozzle", .vdict [
    (.ks "min", .vint 180), (.ks "max", .vint 250), (.ks "recommended", .vint 200)]),
  (.ks "bed", .vdict [
    (.ks "min", .vint 0), (.ks "max", .vint 100), (.ks "recommended", .vint 50)]),
  (.ks "fan", .vdict [
    (.ks "min", .vint 0), (.ks "max", .vint 100), (.ks "recommended", .vint 100)]),
  (.ks "volumetric_speed", .vint 8),
  (.ks "external_ids", .vdict []),
  (.ks "links", .vdict []),
  (.ks "tags", .vlist []),
  (.ks "notes", .vstr ""),
  (.ks "x_prusaslicer", .vdict [])]

/-- View an importer profile as its field list (the converters only ever
build dicts). -/
def asDict : JVal → Except PErr Fields
  | .vdict fs => .ok fs
  | _ => .error .typeError

/-- Model of `profile[k1][k2] = v` on two dict levels: `KeyError` when `k1` is
missing, `TypeError` when `profile[k1]` is not a dict. -/
def setIn2 (fs : Fields) (k1 k2 : String) (v : JVal) : Except PErr Fields :=
  match alGet fs (.ks k1) with
  | some (.vdict inner) => .ok (alSet fs (.ks k1) (.vdict (alSet inner (.ks k2) v)))
  | some _ => .error .typeError
  | none => .error .keyError

/-- The unmapped-key collection loop (`raw_settings`): every config key not
present in the mapping table, with its raw string value. -/
def collectRaw (cfg : List (String × String)) (mapped : List String) : Fields :=
  cfg.foldl (fun acc kv =>
    if kv.1 ∈ mapped then acc
    else alSet acc (.ks kv.1) (.vstr (cfgGetD cfg kv.1 ""))) []

/-- The `x_prusaslicer` stash: only assigned when `raw_settings` is non-empty. -/
def stashRaw (cfg : List (String × String)) (mapped : List String) (fs : Fields) : Fields :=
  let raw := collectRaw cfg mapped
  if raw.isEmpty then fs else alSet fs (.ks "x_prusaslicer") (.vdict raw)

/-- The `printer_model`/`printer_make` block of `convert_printer`: derive
`id`, and fill `manufacturer`/`model` when falsy or `"Unknown"`. -/
def printerIdStage (cfg : List (String × String)) (fs : Fields) : Fields :=
  match cfgGet cfg "printer_model" with
  | none => fs
  | some model =>
    let mk := cfgGetD cfg "printer_make" "Unknown"
    let fs1 := alSet fs (.ks "id") (.vstr (pyReplace (mk ++ "/" ++ model) ' ' "-"))
    let cond1 :=
      match alGet fs1 (.ks "manufacturer") with
      | none => true
      | some m => !pyTruthy m || decide (m = JVal.vstr "Unknown")
    let fs2 := if cond1 then alSet fs1 (.ks "manufacturer") (.vstr mk) else fs1
    let cond2 :=
      match alGet fs2 (.ks "model") with
      | none => true
      | some m => !pyTruthy m || decide (m = JVal.vstr "Unknown")
    if cond2 then alSet fs2 (.ks "model") (.vstr model) else fs2

/-- The `bed_shape` block of `convert_printer`:
`profile["build_volume"]["x"] = dims.get("x", 200)` and likewise for `y`. -/
def printerBedStage (cfg : List (String × String)) (fs : Fields) : Except PErr Fields :=
  let bedShape := cfgGetD cfg "bed_shape" ""
  if bedShape ≠ "" then do
    let dims ← parse_bed_dimensions bedShape
    let fs1 ← setIn2 fs "build_volume" "x" dims.1
    setIn2 fs1 "build_volume" "y" dims.2
  else pure fs

/-- Model of `import_prusaslicer.convert_printer`, over the parsed `[printer]`
section. -/
def convert_printer (cfg : List (String × String)) : Except PErr JVal := do
  let p ← applyMappings cfg PRINTER_MAPPINGS printerSkeleton
  let fs ← asDict p
  let fs ← printerBedStage cfg fs
  let fs := alSet fs (.ks "kinematics") (.vstr (infer_kinematics cfg))
  let fs := printerIdStage cfg fs
  pure (.vdict (stashRaw cfg (PRINTER_MAPPINGS.map (fun e => e.1)) fs))

/-- Python `max(n, d)` for an `int` literal and a float: returns the float
only when it is strictly greater (ties keep the first argument). -/
def pyMaxIntDec (n : Int) (d : Dec) : JVal :=
  if decLt (decOfInt n) d then .vfloat d else .vint n

/-- Python `min(n, d)` for an `int` literal and a float. -/
def pyMinIntDec (n : Int) (d : Dec) : JVal :=
  if decLt d (decOfInt n) then .vfloat d else .vint n

/-- The `temperature` window rule of `convert_filament` (uncaught `float`). -/
def filamentTempStage (cfg : List (String × String)) (fs : Fields) : Except PErr Fields :=
  match cfgGet cfg "temperature" with
  | none => pure fs
  | some raw => do
    let t ← floatE raw
    let fs1 ← setIn2 fs "nozzle" "recommended" (.vfloat t)
    let fs2 ← setIn2 fs1 "nozzle" "min" (pyMaxIntDec 150 (decSub t ⟨20, 0⟩))
    setIn2 fs2 "nozzle" "max" (pyMinIntDec 300 (decAdd t ⟨20, 0⟩))

/-- The `bed_temperature` window rule of `convert_filament`. -/
def filamentBedStage (cfg : List (String × String)) (fs : Fields) : Except PErr Fields :=
  match cfgGet cfg "bed_temperature" with
  | none => pure fs
  | some raw => do
    let t ← floatE raw
    let fs1 ← setIn2 fs "bed" "recommended" (.vfloat t)
    let fs2 ← setIn2 fs1 "bed" "min" (pyMaxIntDec 0 (decSub t ⟨10, 0⟩))
    setIn2 fs2 "bed" "max" (pyMinIntDec 150 (decAdd t ⟨10, 0⟩))

/-- The `max_fan_speed` rule of `convert_filament`. -/
def filamentFanStage (cfg : List (String × String)) (fs : Fields) : Except PErr Fields :=
  match cfgGet cfg "max_fan_speed" with
  | none => pure fs
  | some raw => do
    let t ← floatE raw
    setIn2 fs "fan" "recommended" (.vfloat t)

/-- The brand/name/id block of `convert_filament` (note: the second
`.replace("/", "-")` removes the slash the id was just built with). -/
def filamentIdStage (cfg : List (String × String)) (fs : Fields) : Fields :=
  let brand := cfgGetD cfg "filament_vendor" "Unknown"
  let nm := cfgGetD cfg "filament_name" (cfgGetD cfg "filament_type" "Unknown")
  let fs1 := if brand ≠ "" && brand ≠ "Unknown" then alSet fs (.ks "brand") (.vstr brand) else fs
  let fs2 := if nm ≠ "" && nm ≠ "Unknown" then alSet fs1 (.ks "name") (.vstr nm) else fs1
  let idStr :=
    pyReplace (pyReplace
      (jvalToStr (alGetD fs2 (.ks "brand") .vnull) ++ "/" ++
       jvalToStr (alGetD fs2 (.ks "name") .vnull)) ' ' "-") '/' "-"
  alSet fs2 (.ks "id") (.vstr idStr)

/-- Model of `import_prusaslicer.convert_filament`, over the parsed `[filament]`
section. -/
def convert_filament (cfg : List (String × String)) : Except PErr JVal := do
  let p ← applyMappings cfg FILAMENT_MAPPINGS filamentSkeleton
  let fs ← asDict p
  let fs :=
    match cfgGet cfg "filament_type" with
    | some m => alSet fs (.ks "material") (.vstr (normalize_material m))
    | none => fs
  let fs ← filamentTempStage cfg fs
  let fs ← filamentBedStage cfg fs
  let fs ← filamentFanStage cfg fs
  let fs := filamentIdStage cfg fs
  pure (.vdict (stashRaw cfg (FILAMENT_MAPPINGS.map (fun e => e.1)) fs))

/-! ### Exporters (`tools/convert_profile.py`) -/

/-- Model of `profile.get(k, default)`: `AttributeError` when the receiver is not a
dict. -/
def jGetD (v : JVal) (k : String) (d : JVal) : Except PErr JVal :=
  match v with
  | .vdict fs => .ok (alGetD fs (.ks k) d)
  | _ => .error .attrError

/-- Python `.lower()` on a value: `AttributeError` unless it is a string. -/
def pyLowerE : JVal → Except PErr JVal
  | .vstr s => .ok (.vstr (pyLower s))
  | _ => .error .attrError

/-- Python `v[0]` as the exporters use it on `profile.get("extruders", [{}])`. -/
def pyIndex0 : JVal → Except PErr JVal
  | .vlist xs =>
    match xs.head? with
    | some e => .ok e
    | none => .error .indexError
  | .vstr s =>
    match s.toList.head? with
    | some c => .ok (.vstr (String.mk [c]))
    | none => .error .indexError
  | .vdict fs =>
    match alGet fs (.ki 0) with
    | some v => .ok v
    | none => .error .keyError
  | _ => .error .typeError

/-- Python `v[:4]` as `convert_to_bambu` slices `material`: `TypeError` unless a
string. -/
def pyTake4 : JVal → Except PErr String
  | .vstr s => .ok (String.mk (s.toList.take 4))
  | _ => .error .typeError

/-- Model of `convert_profile.convert_to_cura`. -/
def convert_to_cura (profile : JVal) : Except PErr JVal := do
  let schema ← jGetD profile "op3d_schema" (.vstr "")
  if schema = .vstr "filament" then do
    let xc ← jGetD profile "x_cura" (.vdict [])
    if pyTruthy xc then pure xc
    else do
      let nozzle ← jGetD profile "nozzle" (.vdict [])
      let bed ← jGetD profile "bed" (.vdict [])
      let fan ← jGetD profile "fan" (.vdict [])
      let mat ← jGetD profile "material" (.vstr "pla")
      let matL ← pyLowerE mat
      let a1 ← jGetD nozzle "recommended" (.vint 200)
      let a2 ← jGetD nozzle "min" (.vint 180)
      let a3 ← jGetD bed "recommended" (.vint 50)
      let a4 ← jGetD bed "min" (.vint 40)
      let a5 ← jGetD fan "recommended" (.vint 100)
      pure (.vdict [
        (.ks "material", matL),
        (.ks "print_temperature", a1),
        (.ks "print_temperature_layer_0", a2),
        (.ks "bed_temperature", a3),
        (.ks "bed_temperature_layer_0", a4),
        (.ks "fan_speed", a5),
        (.ks "fan_speed_layer_0", .vint 0),
        (.ks "cooling", .vstr "enabled")])
  else if schema = .vstr "printer" then do
    let xc ← jGetD profile "x_cura" (.vdict [])
    if pyTruthy xc then jGetD xc "definition_changes" (.vdict [])
    else do
      let bv ← jGetD profile "build_volume" (.vdict [])
      let w ← jGetD bv "x" (.vint 200)
      let dp ← jGetD bv "y" (.vint 200)
      let ht ← jGetD bv "z" (.vint 200)
      let bed ← jGetD profile "bed" (.vdict [])
      let hb ← jGetD bed "heated" (.vbool true)
      pure (.vdict [
        (.ks "machine_width", w),
        (.ks "machine_depth", dp),
        (.ks "machine_height", ht),
        (.ks "nozzle_size", .vfloat ⟨4, 1⟩),
        (.ks "heated_bed", hb)])
  else pure (.vdict [])

/-- Model of `convert_profile.convert_to_prusaslicer`. -/
def convert_to_prusaslicer (profile : JVal) : Except PErr JVal := do
  let schema ← jGetD profile "op3d_schema" (.vstr "")
  if schema = .vstr "filament" then do
    let xp ← jGetD profile "x_prusaslicer" (.vdict [])
    if pyTruthy xp then pure xp
    else do
      let nozzle ← jGetD profile "nozzle" (.vdict [])
      let bed ← jGetD profile "bed" (.vdict [])
      let fan ← jGetD profile "fan" (.vdict [])
      let mat ← jGetD profile "material" (.vstr "PLA")
      let t ← jGetD nozzle "recommended" (.vint 200)
      let bt ← jGetD bed "recommended" (.vint 50)
      let fsp ← jGetD fan "recommended" (.vint 100)
      pure (.vdict [
        (.ks "filament_type", mat),
        (.ks "temperature", t),
        (.ks "bed_temperature", bt),
        (.ks "fan_speed", fsp)])
  else if schema = .vstr "printer" then do
    let xp ← jGetD profile "x_prusaslicer" (.vdict [])
    if pyTruthy xp then pure xp
    else do
      let bv ← jGetD profile "build_volume" (.vdict [])
      let exs ← jGetD profile "extruders" (.vlist [.vdict []])
      let ex0 ← pyIndex0 exs
      let man ← jGetD profile "manufacturer" (.vstr "")
      let mdl ← jGetD profile "model" (.vstr "")
      let vnd ← jGetD profile "manufacturer" (.vstr "Unknown")
      let nd ← jGetD ex0 "nozzle_diameter" (.vfloat ⟨4, 1⟩)
      let shp ← jGetD bv "shape" (.vstr "rectangular")
      let bx ← jGetD bv "x" (.vint 200)
      let by0 ← jGetD bv "y" (.vint 200)
      let ph ← jGetD bv "z" (.vint 200)
      pure (.vdict [
        (.ks "printer_model", .vstr (jvalToStr man ++ " " ++ jvalToStr mdl)),
        (.ks "vendor", vnd),
        (.ks "filament_diameter", .vfloat ⟨175, 2⟩),
        (.ks "nozzle_diameter", nd),
        (.ks "bed_shape", shp),
        (.ks "bed_size", .vstr (jvalToStr bx ++ "x" ++ jvalToStr by0)),
        (.ks "print_height", ph)])
  else pure (.vdict [])

/-- Model of `convert_profile.convert_to_orca`. -/
def convert_to_orca (profile : JVal) : Except PErr JVal := do
  let schema ← jGetD profile "op3d_schema" (.vstr "")
  if schema = .vstr "filament" then do
    let xo ← jGetD profile "x_orca" (.vdict [])
    if pyTruthy xo then pure xo
    else do
      let nozzle ← jGetD profile "nozzle" (.vdict [])
      let bed ← jGetD profile "bed" (.vdict [])
      let fan ← jGetD profile "fan" (.vdict [])
      let mat ← jGetD profile "material" (.vstr "PLA")
      let a1 ← jGetD nozzle "recommended" (.vint 200)
      let a2 ← jGetD nozzle "min" (.vint 180)
      let a3 ← jGetD bed "recommended" (.vint 50)
      let a4 ← jGetD bed "min" (.vint 40)
      let a5 ← jGetD fan "recommended" (.vint 100)
      pure (.vdict [
        (.ks "filament_type", mat),
        (.ks "nozzle_temperature", a1),
        (.ks "nozzle_temperature_initial_layer", a2),
        (.ks "bed_temperature", a3),
        (.ks "bed_temperature_initial_layer", a4),
        (.ks "fan_speed", a5),
        (.ks "fan_speed_initial_layer", .vint 0)])
  else if schema = .vstr "printer" then do
    let xo ← jGetD profile "x_orca" (.vdict [])
    if pyTruthy xo then pure xo
    else do
      let bv ← jGetD profile "build_volume" (.vdict [])
      let exs ← jGetD profile "extruders" (.vlist [.vdict []])
      let ex0 ← pyIndex0 exs
      let man ← jGetD profile "manufacturer" (.vstr "")
      let mdl ← jGetD profile "model" (.vstr "")
      let mfr ← jGetD profile "manufacturer" (.vstr "Unknown")
      let bx ← jGetD bv "x" (.vint 200)
      let by0 ← jGetD bv "y" (.vint 200)
      let hz ← jGetD bv "z" (.vint 200)
      let nd ← jGetD ex0 "nozzle_diameter" (.vfloat ⟨4, 1⟩)
      pure (.vdict [
        (.ks "machine_name", .vstr (jvalToStr man ++ " " ++ jvalToStr mdl)),
        (.ks "machine_manufacturer", mfr),
        (.ks "bed_x", bx),
        (.ks "bed_y", by0),
        (.ks "height", hz),
        (.ks "nozzle_diameter", nd),
        (.ks "filament_diameter", .vfloat ⟨175, 2⟩)])
  else pure (.vdict [])

/-- Model of `convert_profile.convert_to_bambu`. -/
def convert_to_bambu (profile : JVal) : Except PErr JVal := do
  let schema ← jGetD profile "op3d_schema" (.vstr "")
  if schema = .vstr "filament" then do
    let xb ← jGetD profile "x_bambu" (.vdict [])
    if pyTruthy xb then pure xb
    else do
      let nozzle ← jGetD profile "nozzle" (.vdict [])
      let bed ← jGetD profile "bed" (.vdict [])
      let fan ← jGetD profile "fan" (.vdict [])
      let mat ← jGetD profile "material" (.vstr "PLA")
      let mat4 ← pyTake4 mat
      let n1 ← jGetD nozzle "min" (.vint 190)
      let n2 ← jGetD nozzle "max" (.vint 230)
      let b1 ← jGetD bed "min" (.vint 40)
      let b2 ← jGetD bed "max" (.vint 60)
      let f1 ← jGetD fan "min" (.vint 50)
      let f2 ← jGetD fan "max" (.vint 100)
      pure (.vdict [
        (.ks "filament_type_id", .vstr ("G" ++ mat4 ++ "00")),
        (.ks "drying_temperature", .vint 55),
        (.ks "drying_time", .vint 4),
        (.ks "nozzle_temperature", .vlist [n1, n2]),
        (.ks "bed_temperature", .vlist [b1, b2]),
        (.ks "fan_speed", .vlist [f1, f2])])
  else if schema = .vstr "printer" then do
    let xb ← jGetD profile "x_bambu" (.vdict [])
    if pyTruthy xb then pure xb
    else do
      let man ← jGetD profile "manufacturer" (.vstr "")
      let manL ← pyLowerE man
      let mdl ← jGetD profile "model" (.vstr "")
      let mdlL ← pyLowerE mdl
      let mdlId :=
        match mdlL with
        | .vstr s => pyReplace (pyReplace s '-' "") ' ' ""
        | _ => ""
      let srs ← jGetD profile "model" (.vstr "Unknown")
      pure (.vdict [
        (.ks "product_id", .vstr (jvalToStr manL ++ "_" ++ mdlId ++ "_00")),
        (.ks "series", srs),
        (.ks "support_lidar", .vbool false),
        (.ks "support_ams", .vbool false),
        (.ks "support_ams_lite", .vbool false)])
  else pure (.vdict [])

/-- Python `str()` of a dictionary key as it appears in a serialized
section. -/
def pyKeyStr : PyKey → String
  | .ks s => s
  | .ki n => jvalToStr (.vint n)

/-- Serialize an exported document back into an INI-style section: each
value as its `str()` form (the glue between `convert_profile.py` output and
a re-import through `import_prusaslicer.py`). -/
def stringifyDoc : JVal → List (String × String)
  | .vdict fs => fs.map (fun kv => (pyKeyStr kv.1, jvalToStr kv.2))
  | _ => []

/-- The round trip of claim C1 for the PrusaSlicer dialect and the filament
kind: import, export, serialize, re-import. -/
def export_reimport_ps (cfg : List (String × String)) : Except PErr JVal := do
  let p ← convert_filament cfg
  let ex ← convert_to_prusaslicer p
  convert_filament (stringifyDoc ex)

/-! ### Flatten / diff engine (`tools/compare_profiles.py`) -/

/-- The f-string key join of `flatten_dict`
(`f"{parent_key}{sep}{k}" if parent_key else k`). -/
def joinKey (parent : String) (k : PyKey) : String :=
  let ks :=
    match k with
    | .ks s => s
    | .ki n => jvalToStr (.vint n)
  if parent = "" then ks else parent ++ "." ++ ks

mutual

/-- Items contributed by one value of `flatten_dict`: dict values recurse,
lists and scalars terminate. -/
def flattenV : JVal → String → List (String × JVal)
  | .vdict gs, nk => flattenF gs nk
  | v, nk => [(nk, v)]

/-- The item list accumulated by `flatten_dict` over a field list. -/
def flattenF : Fields → String → List (String × JVal)
  | [], _ => []
  | (k, v) :: rest, parent => flattenV v (joinKey parent k) ++ flattenF rest parent

end

/-- Python `dict(items)`: later duplicate keys win. -/
def pyDictOfS (l : List (String × JVal)) : List (String × JVal) :=
  l.foldl (fun acc kv => alSet acc kv.1 kv.2) []

/-- Model of `compare_profiles.flatten_dict` (top-level call, empty parent key). -/
def flatten_dict (fs : Fields) : List (String × JVal) :=
  pyDictOfS (flattenF fs "")

/-- Model of `compare_profiles.compare_values`: the `None` special cases, then
Python `==` (structural for dicts and lists, numeric-tolerant for
numbers). -/
def compare_values (v1 v2 : JVal) : Bool :=
  match v1, v2 with
  | .vnull, .vnull => true
  | .vnull, _ => false
  | _, .vnull => false
  | a, b => pyEq a b

/-- One line of the `differences` list. -/
structure DiffEntry where
  key : String
  profile1 : JVal
  profile2 : JVal
  status : String
deriving DecidableEq, Repr

/-- The `stats` block of the comparison result. -/
structure CompareStats where
  total_keys : Nat
  differences : Nat
  common : Nat
  only_in_profile1 : Nat
  only_in_profile2 : Nat
  modified : Nat
deriving DecidableEq, Repr

/-- The result dictionary of `compare_profiles`. -/
structure CompareResult where
  profile1_schema : JVal
  profile2_schema : JVal
  profile1_id : JVal
  profile2_id : JVal
  differences : List DiffEntry
  common : List (String × JVal)
  stats : CompareStats
deriving DecidableEq, Repr

/-- Deduplicate keeping first occurrences (`set()` membership collapse). -/
def uniqKeysAux (seen : List String) : List String → List String
  | [] => []
  | k :: r =>
    if k ∈ seen then uniqKeysAux seen r
    else k :: uniqKeysAux (k :: seen) r

/-- The distinct keys of a list, in first-occurrence order. -/
def uniqKeys (l : List String) : List String := uniqKeysAux [] l

/-- Insert into an ascending list (Python `sorted` on distinct strings). -/
def insertSorted (x : String) : List String → List String
  | [] => [x]
  | y :: r => if strLtB y x then y :: insertSorted x r else x :: y :: r

/-- Sort strings ascending by code point, as `sorted(...)`. -/
def sortKeys : List String → List String
  | [] => []
  | x :: r => insertSorted x (sortKeys r)

/-- Model of `sorted(set(flat1.keys()) | set(flat2.keys()))`. -/
def sortedUnion (l : List String) : List String := sortKeys (uniqKeys l)

/-- The classification loop body of `compare_profiles`: missing values are
rendered as Python `None`. -/
def classify (flat1 flat2 : List (String × JVal)) (showCommon : Bool) :
    List String → List DiffEntry × List (String × JVal) →
    List DiffEntry × List (String × JVal)
  | [], acc => acc
  | key :: rest, acc =>
    match alGet flat1 key with
    | none =>
      classify flat1 flat2 showCommon rest
        (acc.1 ++ [⟨key, .vnull, alGetD flat2 key .vnull, "only_in_profile2"⟩], acc.2)
    | some v1 =>
      match alGet flat2 key with
      | none =>
        classify flat1 flat2 showCommon rest
          (acc.1 ++ [⟨key, v1, .vnull, "only_in_profile1"⟩], acc.2)
      | some v2 =>
        if !compare_values v1 v2 then
          classify flat1 flat2 showCommon rest
            (acc.1 ++ [⟨key, v1, v2, "different"⟩], acc.2)
        else if showCommon then
          classify flat1 flat2 showCommon rest (acc.1, acc.2 ++ [(key, v1)])
        else classify flat1 flat2 showCommon rest acc

/-- Model of `compare_profiles.compare_profiles` over two profile dicts. -/
def compare_profiles (fs1 fs2 : Fields) (showCommon : Bool) : CompareResult :=
  let flat1 := flatten_dict fs1
  let flat2 := flatten_dict fs2
  let allKeys := sortedUnion (flat1.map Prod.fst ++ flat2.map Prod.fst)
  let dc := classify flat1 flat2 showCommon allKeys ([], [])
  { profile1_schema := alGetD fs1 (.ks "op3d_schema") (.vstr "unknown")
    profile2_schema := alGetD fs2 (.ks "op3d_schema") (.vstr "unknown")
    profile1_id := alGetD fs1 (.ks "id") (.vstr "unknown")
    profile2_id := alGetD fs2 (.ks "id") (.vstr "unknown")
    differences := dc.1
    common := dc.2
    stats := {
      total_keys := allKeys.length
      differences := dc.1.length
      common := dc.2.length
      only_in_profile1 := (dc.1.filter (fun d => d.status = "only_in_profile1")).length
      only_in_profile2 := (dc.1.filter (fun d => d.status = "only_in_profile2")).length
      modified := (dc.1.filter (fun d => d.status = "different")).length } }

mutual

/-- Number of leaf keys below one value: non-dict values count one, dicts
count their entries recursively (an empty dict contributes none, matching
what `flatten_dict` yields). -/
def leafV : JVal → Nat
  | .vdict gs => leafF gs
  | _ => 1

/-- Number of leaf keys of a field list. -/
def leafF : Fields → Nat
  | [] => 0
  | (_, v) :: rest => leafV v + leafF rest

end

mutual

/-- Well-formedness of an embedded value as a Python object: every dict
level has pairwise-distinct keys (Python dictionaries cannot do
otherwise). -/
def wfJ : JVal → Bool
  | .vlist xs => wfL xs
  | .vdict fs => decide ((fs.map Prod.fst).Nodup) && wfF fs
  | _ => true

def wfL : List JVal → Bool
  | [] => true
  | v :: rest => wfJ v && wfL rest

def wfF : Fields → Bool
  | [] => true
  | (_, v) :: rest => wfJ v && wfF rest

end

example : flatten_dict [(.ks "a", .vint 1), (.ks "b", .vdict [(.ks "c", .vstr "x")])]
    = [("a", .vint 1), ("b.c", .vstr "x")] := by decide
example : (compare_profiles [(.ks "v", .vint 50)] [(.ks "v", .vfloat ⟨50, 0⟩)] false).differences
    = [] := by decide
example : sortedUnion ["b", "a", "b", "c"] = ["a", "b", "c"] := by decide
example : leafF [(.ks "a", .vint 1), (.ks "b", .vdict [(.ks "c", .vstr "x"), (.ks "d", .vdict [])])] = 2 := by decide
example : wfJ (.vdict [(.ks "a", .vint 1), (.ks "a", .vint 2)]) = false := by decide
example : wfJ printerSkeleton = true := by decide

/-! ### Printing and re-parsing decimals, and material normalization
(groundwork for claim C1's value-general round trip) -/

/-- The digit characters carry code point `48 + r` and satisfy `isdigit`. -/
theorem digitChar_spec (r : Nat) (h : r < 10) :
    (digitChar r).toNat = 48 + r ∧ (digitChar r).isDigit = true := by
  interval_cases r <;> exact ⟨by decide, by decide⟩

/-- Decimal digits have code points between 48 and 57. -/
theorem digit_bounds (c : Char) (h : c.isDigit = true) :
    48 ≤ c.toNat ∧ c.toNat ≤ 57 := by
  simp [Char.isDigit] at h
  exact h

/-- Decimal digits are not whitespace. -/
theorem digit_not_ws (c : Char) (h : c.isDigit = true) : c.isWhitespace = false := by
  obtain ⟨h1, h2⟩ := digit_bounds c h
  simp only [Char.isWhitespace, Bool.or_eq_false_iff, decide_eq_false_iff_not]
  refine ⟨⟨⟨?_, ?_⟩, ?_⟩, ?_⟩ <;> intro he <;> subst he <;>
    exact absurd h1 (by decide)

/-- Decimal digits are not sign characters. -/
theorem digit_ne_sign (c : Char) (h : c.isDigit = true) : c ≠ '+' ∧ c ≠ '-' := by
  obtain ⟨h1, h2⟩ := digit_bounds c h
  constructor <;> intro he <;> subst he <;> exact absurd h1 (by decide)

/-- The digit-string value seen from an arbitrary accumulator. -/
theorem digitsVal_foldl (b : List Char) : ∀ acc : Nat,
    b.foldl (fun a c => a * 10 + (c.toNat - 48)) acc
      = acc * 10 ^ b.length + digitsVal b := by
  induction b with
  | nil => intro acc; simp [digitsVal]
  | cons c r ih =>
    intro acc
    rw [List.foldl_cons, ih]
    have h2 : digitsVal (c :: r) = (0 * 10 + (c.toNat - 48)) * 10 ^ r.length + digitsVal r := by
      rw [digitsVal, List.foldl_cons, ih]
    rw [h2, List.length_cons, pow_succ]
    ring

/-- Concatenating digit runs multiplies the leading run by a power of ten. -/
theorem digitsVal_append (a b : List Char) :
    digitsVal (a ++ b) = digitsVal a * 10 ^ b.length + digitsVal b := by
  rw [digitsVal, List.foldl_append, digitsVal_foldl]
  rfl

/-- Leading zeros do not change a digit-string value. -/
theorem digitsVal_replicate_zero (j : Nat) (l : List Char) :
    digitsVal (List.replicate j '0' ++ l) = digitsVal l := by
  rw [digitsVal_append]
  have h : digitsVal (List.replicate j '0') = 0 := by
    induction j with
    | zero => rfl
    | succ i ih =>
      rw [List.replicate_succ]
      exact ih
  rw [h]
  simp

/-- Dividing by ten stays below the next-smaller power of ten. -/
theorem div10_lt_pow (n f : Nat) (h : n < 10 ^ (f + 1)) : n / 10 < 10 ^ f := by
  rw [Nat.div_lt_iff_lt_mul (by norm_num : 0 < 10)]
  calc n < 10 ^ (f + 1) := h
    _ = 10 ^ f * 10 := pow_succ 10 f

/-- The fuelled digit printer is correct, yields digits, is nonempty, and
prints at most `fuel` characters, whenever the fuel covers the input. -/
theorem natDigitsAux_spec : ∀ (fuel n : Nat), 1 ≤ fuel → n < 10 ^ fuel →
    digitsVal (natDigitsAux fuel n) = n ∧
    (∀ c ∈ natDigitsAux fuel n, c.isDigit = true) ∧
    natDigitsAux fuel n ≠ [] ∧ (natDigitsAux fuel n).length ≤ fuel := by
  intro fuel
  induction fuel with
  | zero => intro n h; omega
  | succ f ih =>
    intro n _ hn
    by_cases h10 : n < 10
    · simp only [natDigitsAux, if_pos h10]
      obtain ⟨hto, hdig⟩ := digitChar_spec n h10
      refine ⟨?_, ?_, by simp, by simp⟩
      · show 0 * 10 + ((digitChar n).toNat - 48) = n
        rw [hto]; omega
      · intro c hc
        rw [List.mem_singleton] at hc
        subst hc; exact hdig
    · have hf : 1 ≤ f := by
        rcases Nat.eq_zero_or_pos f with h0 | h
        · subst h0; rw [pow_one] at hn; omega
        · exact h
      have hdiv : n / 10 < 10 ^ f := div10_lt_pow n f hn
      obtain ⟨ih1, ih2, ih3, ih4⟩ := ih (n / 10) hf hdiv
      simp only [natDigitsAux, if_neg h10]
      have hlt : n % 10 < 10 := Nat.mod_lt n (by norm_num)
      obtain ⟨hto, hdig⟩ := digitChar_spec (n % 10) hlt
      have hone : digitsVal [digitChar (n % 10)] = n % 10 := by
        show 0 * 10 + ((digitChar (n % 10)).toNat - 48) = n % 10
        rw [hto]; omega
      refine ⟨?_, ?_, by simp, ?_⟩
      · rw [digitsVal_append, ih1, hone, List.length_singleton, pow_one]
        omega
      · intro c hc
        rcases List.mem_append.mp hc with h | h
        · exact ih2 c h
        · rw [List.mem_singleton] at h
          subst h; exact hdig
      · rw [List.length_append, List.length_singleton]
        omega

/-- The printed digits do not depend on the fuel, once it covers the input. -/
theorem natDigitsAux_fuel : ∀ (n f g : Nat), 1 ≤ f → n < 10 ^ f →
    1 ≤ g → n < 10 ^ g → natDigitsAux f n = natDigitsAux g n := by
  intro n
  induction n using Nat.strong_induction_on with
  | _ n ih =>
    intro f g hf hnf hg hng
    obtain ⟨f', rfl⟩ : ∃ j, f = j + 1 := ⟨f - 1, by omega⟩
    obtain ⟨g', rfl⟩ : ∃ j, g = j + 1 := ⟨g - 1, by omega⟩
    by_cases h10 : n < 10
    · simp only [natDigitsAux, if_pos h10]
    · have hf' : 1 ≤ f' := by
        rcases Nat.eq_zero_or_pos f' with h0 | h
        · subst h0; rw [pow_one] at hnf; omega
        · exact h
      have hg' : 1 ≤ g' := by
        rcases Nat.eq_zero_or_pos g' with h0 | h
        · subst h0; rw [pow_one] at hng; omega
        · exact h
      have hd : n / 10 < n := Nat.div_lt_self (by omega) (by norm_num)
      simp only [natDigitsAux, if_neg h10]
      rw [ih (n / 10) hd f' g' hf' (div10_lt_pow n f' hnf) hg' (div10_lt_pow n g' hng)]

/-- Digit printing is correct: the printed digits read back to the number,
are decimal digits, and are never empty. -/
theorem natDigits_spec (n : Nat) :
    digitsVal (natDigits n) = n ∧ (∀ c ∈ natDigits n, c.isDigit = true) ∧
    natDigits n ≠ [] := by
  have hlt : n < 10 ^ (n + 1) :=
    lt_of_lt_of_le (Nat.lt_pow_self (by norm_num) n)
      (Nat.pow_le_pow_right (by norm_num) (by omega))
  obtain ⟨h1, h2, h3, _⟩ := natDigitsAux_spec (n + 1) n (by omega) hlt
  exact ⟨h1, h2, h3⟩

/-- A number below `10 ^ k` prints in at most `k` digits. -/
theorem natDigits_length_le (n k : Nat) (hk : 1 ≤ k) (h : n < 10 ^ k) :
    (natDigits n).length ≤ k := by
  have hlt : n < 10 ^ (n + 1) :=
    lt_of_lt_of_le (Nat.lt_pow_self (by norm_num) n)
      (Nat.pow_le_pow_right (by norm_num) (by omega))
  rw [natDigits, natDigitsAux_fuel n (n + 1) k (by omega) hlt hk h]
  exact (natDigitsAux_spec k n hk h).2.2.2

/-- Chars that all fail the predicate are not dropped. -/
theorem dropWhile_eq_self_of (p : Char → Bool) (cs : List Char)
    (h : ∀ c ∈ cs, p c = false) : cs.dropWhile p = cs := by
  cases cs with
  | nil => rfl
  | cons c r =>
    rw [List.dropWhile_cons, if_neg]
    simp [h c (by simp)]

/-- Surrounding-whitespace stripping leaves whitespace-free text alone. -/
theorem pyStrip_eq_self (cs : List Char) (h : ∀ c ∈ cs, c.isWhitespace = false) :
    pyStrip cs = cs := by
  unfold pyStrip
  rw [dropWhile_eq_self_of _ _ h,
    dropWhile_eq_self_of _ _ (fun c hc => h c (List.mem_reverse.mp hc)),
    List.reverse_reverse]

/-- The sign scanner leaves a signless string alone. -/
theorem pySign_of_ne (c : Char) (r : List Char) (h1 : c ≠ '+') (h2 : c ≠ '-') :
    pySign (c :: r) = (1, c :: r) := by
  simp only [pySign, if_neg h1, if_neg h2]

/-- Chars that all satisfy the predicate are all taken. -/
theorem takeWhile_all (p : Char → Bool) : ∀ xs : List Char,
    (∀ c ∈ xs, p c = true) → xs.takeWhile p = xs := by
  intro xs
  induction xs with
  | nil => intro _; rfl
  | cons c r ih =>
    intro h
    rw [List.takeWhile_cons, if_pos (h c (by simp)), ih (fun x hx => h x (by simp [hx]))]

/-- Chars that all satisfy the predicate are all dropped. -/
theorem dropWhile_all (p : Char → Bool) : ∀ xs : List Char,
    (∀ c ∈ xs, p c = true) → xs.dropWhile p = [] := by
  intro xs
  induction xs with
  | nil => intro _; rfl
  | cons c r ih =>
    intro h
    rw [List.dropWhile_cons, if_pos (h c (by simp)), ih (fun x hx => h x (by simp [hx]))]

/-- Taking while the predicate holds stops exactly at the first failure. -/
theorem takeWhile_append_stop (p : Char → Bool) (xs : List Char) (y : Char)
    (ys : List Char) (h : ∀ c ∈ xs, p c = true) (hy : p y = false) :
    (xs ++ y :: ys).takeWhile p = xs := by
  induction xs with
  | nil => simp [List.takeWhile_cons, hy]
  | cons c r ih =>
    rw [List.cons_append, List.takeWhile_cons, if_pos (h c (by simp)),
      ih (fun x hx => h x (by simp [hx]))]

/-- Dropping while the predicate holds stops exactly at the first failure. -/
theorem dropWhile_append_stop (p : Char → Bool) (xs : List Char) (y : Char)
    (ys : List Char) (h : ∀ c ∈ xs, p c = true) (hy : p y = false) :
    (xs ++ y :: ys).dropWhile p = y :: ys := by
  induction xs with
  | nil => simp [List.dropWhile_cons, hy]
  | cons c r ih =>
    rw [List.cons_append, List.dropWhile_cons, if_pos (h c (by simp)),
      ih (fun x hx => h x (by simp [hx]))]

/-- Parsing an unsigned digit string with a fractional part. -/
theorem pyFloat_digits_pos (ip fp : List Char)
    (hip : ∀ c ∈ ip, c.isDigit = true) (hfp : ∀ c ∈ fp, c.isDigit = true)
    (hipne : ip ≠ []) (hfpne : fp ≠ []) :
    pyFloat (String.mk (ip ++ '.' :: fp))
      = some (decNorm ((digitsVal (ip ++ fp) : Int)) fp.length) := by
  obtain ⟨c0, ip0, rfl⟩ := List.exists_cons_of_ne_nil hipne
  obtain ⟨e0, fp0, rfl⟩ := List.exists_cons_of_ne_nil hfpne
  have hnw : ∀ c ∈ c0 :: (ip0 ++ '.' :: e0 :: fp0), c.isWhitespace = false := by
    intro c hc
    rw [← List.cons_append] at hc
    rcases List.mem_append.mp hc with h | h
    · exact digit_not_ws c (hip c h)
    · rcases List.mem_cons.mp h with h | h
      · subst h; decide
      · exact digit_not_ws c (hfp c h)
  have hstrip : pyStrip (c0 :: (ip0 ++ '.' :: e0 :: fp0))
      = c0 :: (ip0 ++ '.' :: e0 :: fp0) := pyStrip_eq_self _ hnw
  have hc0 := digit_ne_sign c0 (hip c0 (by simp))
  have hsign : pySign (c0 :: (ip0 ++ '.' :: e0 :: fp0))
      = (1, c0 :: (ip0 ++ '.' :: e0 :: fp0)) := pySign_of_ne c0 _ hc0.1 hc0.2
  have htk : (c0 :: (ip0 ++ '.' :: e0 :: fp0)).takeWhile Char.isDigit = c0 :: ip0 := by
    rw [← List.cons_append]
    exact takeWhile_append_stop _ _ _ _ hip (by decide)
  have hdr : (c0 :: (ip0 ++ '.' :: e0 :: fp0)).dropWhile Char.isDigit
      = '.' :: e0 :: fp0 := by
    rw [← List.cons_append]
    exact dropWhile_append_stop _ _ _ _ hip (by decide)
  have htk2 : (e0 :: fp0).takeWhile Char.isDigit = e0 :: fp0 := takeWhile_all _ _ hfp
  have hdr2 : (e0 :: fp0).dropWhile Char.isDigit = [] := dropWhile_all _ _ hfp
  simp [pyFloat, String.toList, hstrip, hsign, htk, hdr, htk2, hdr2]

/-- Parsing a negated digit string with a fractional part. -/
theorem pyFloat_digits_neg (ip fp : List Char)
    (hip : ∀ c ∈ ip, c.isDigit = true) (hfp : ∀ c ∈ fp, c.isDigit = true)
    (hipne : ip ≠ []) (hfpne : fp ≠ []) :
    pyFloat (String.mk ('-' :: (ip ++ '.' :: fp)))
      = some (decNorm (-(digitsVal (ip ++ fp) : Int)) fp.length) := by
  obtain ⟨c0, ip0, rfl⟩ := List.exists_cons_of_ne_nil hipne
  obtain ⟨e0, fp0, rfl⟩ := List.exists_cons_of_ne_nil hfpne
  have hnw : ∀ c ∈ '-' :: c0 :: (ip0 ++ '.' :: e0 :: fp0), c.isWhitespace = false := by
    intro c hc
    rcases List.mem_cons.mp hc with h | h
    · subst h; decide
    · rw [← List.cons_append] at h
      rcases List.mem_append.mp h with h | h
      · exact digit_not_ws c (hip c h)
      · rcases List.mem_cons.mp h with h | h
        · subst h; decide
        · exact digit_not_ws c (hfp c h)
  have hstrip : pyStrip ('-' :: c0 :: (ip0 ++ '.' :: e0 :: fp0))
      = '-' :: c0 :: (ip0 ++ '.' :: e0 :: fp0) := pyStrip_eq_self _ hnw
  have hsign : pySign ('-' :: c0 :: (ip0 ++ '.' :: e0 :: fp0))
      = (-1, c0 :: (ip0 ++ '.' :: e0 :: fp0)) := by
    simp [pySign]
  have htk : (c0 :: (ip0 ++ '.' :: e0 :: fp0)).takeWhile Char.isDigit = c0 :: ip0 := by
    rw [← List.cons_append]
    exact takeWhile_append_stop _ _ _ _ hip (by decide)
  have hdr : (c0 :: (ip0 ++ '.' :: e0 :: fp0)).dropWhile Char.isDigit
      = '.' :: e0 :: fp0 := by
    rw [← List.cons_append]
    exact dropWhile_append_stop _ _ _ _ hip (by decide)
  have htk2 : (e0 :: fp0).takeWhile Char.isDigit = e0 :: fp0 := takeWhile_all _ _ hfp
  have hdr2 : (e0 :: fp0).dropWhile Char.isDigit = [] := dropWhile_all _ _ hfp
  simp [pyFloat, String.toList, hstrip, hsign, htk, hdr, htk2, hdr2]

/-- Canonicalization indeed canonicalizes: either the exponent is spent or
the mantissa has no trailing zero. -/
theorem decNorm_canon (m : Int) (k : Nat) :
    (decNorm m k).exp = 0 ∨ (decNorm m k).man % 10 ≠ 0 := by
  induction k generalizing m with
  | zero => left; rfl
  | succ k ih =>
    simp only [decNorm]
    by_cases h : m % 10 = 0
    · rw [if_pos h]; exact ih (m / 10)
    · rw [if_neg h]; right; exact h

/-- One trailing zero is divided out. -/
theorem decNorm_mul10 (m : Int) : decNorm (m * 10) 1 = ⟨m, 0⟩ := by
  simp only [decNorm]
  rw [if_pos (Int.mul_emod_left m 10), Int.mul_ediv_cancel m (by norm_num)]

/-- A canonical pair is left alone. -/
theorem decNorm_stuck (m : Int) (k : Nat) (hk : k ≠ 0) (hm : m % 10 ≠ 0) :
    decNorm m k = ⟨m, k⟩ := by
  obtain ⟨j, rfl⟩ : ∃ j, k = j + 1 := ⟨k - 1, by omega⟩
  simp only [decNorm]
  rw [if_neg hm]

/-- Every parse result is canonical. -/
theorem pyFloat_canon (s : String) (d : Dec) (h : pyFloat s = some d) :
    d.exp = 0 ∨ d.man % 10 ≠ 0 := by
  simp only [pyFloat] at h
  split at h
  · exact absurd h (by simp)
  · split at h
    · rw [Option.some.injEq] at h
      exact h ▸ decNorm_canon _ _
    · split at h
      · split at h
        · exact absurd h (by simp)
        · split at h
          · rw [Option.some.injEq] at h
            exact h ▸ decNorm_canon _ _
          · rw [Option.some.injEq] at h
            exact h ▸ decNorm_canon _ _
      · exact absurd h (by simp)

/-- Printing a canonical decimal and parsing it back is the identity — the
exact print/parse round trip behind claim C1's re-import. -/
theorem decRepr_roundtrip (d : Dec) (hc : d.exp = 0 ∨ d.man % 10 ≠ 0) :
    pyFloat (decRepr d) = some d := by
  obtain ⟨M, k⟩ := d
  obtain ⟨hv, hd, hne⟩ := natDigits_spec M.natAbs
  by_cases hk : k = 0
  · subst hk
    have hz : ∀ c ∈ ['0'], c.isDigit = true := by
      intro c hc2
      rw [List.mem_singleton] at hc2
      subst hc2; decide
    by_cases hM : M < 0
    · have h1 : decRepr ⟨M, 0⟩
          = String.mk ('-' :: (natDigits M.natAbs ++ '.' :: ['0'])) := by
        simp [decRepr, hM]
      rw [h1, pyFloat_digits_neg _ _ hd hz hne (by simp)]
      have h2 : -(digitsVal (natDigits M.natAbs ++ ['0']) : Int)
          = -(M.natAbs : Int) * 10 := by
        rw [digitsVal_append, hv, show digitsVal ['0'] = 0 from by decide,
          show (['0'] : List Char).length = 1 from rfl, pow_one]
        push_cast
        ring
      rw [h2, show (['0'] : List Char).length = 1 from rfl, decNorm_mul10,
        show -(M.natAbs : Int) = M from by omega]
    · have h1 : decRepr ⟨M, 0⟩ = String.mk (natDigits M.natAbs ++ '.' :: ['0']) := by
        simp [decRepr, hM]
      rw [h1, pyFloat_digits_pos _ _ hd hz hne (by simp)]
      have h2 : (digitsVal (natDigits M.natAbs ++ ['0']) : Int)
          = (M.natAbs : Int) * 10 := by
        rw [digitsVal_append, hv, show digitsVal ['0'] = 0 from by decide,
          show (['0'] : List Char).length = 1 from rfl, pow_one]
        push_cast
        ring
      rw [h2, show (['0'] : List Char).length = 1 from rfl, decNorm_mul10,
        show ((M.natAbs : Nat) : Int) = M from by omega]
  · have hm10 : M % 10 ≠ 0 := by
      rcases hc with h | h
      · exact absurd h hk
      · exact h
    have hppos : 0 < 10 ^ k := Nat.pos_pow_of_pos k (by norm_num)
    have hmod : M.natAbs % 10 ^ k < 10 ^ k := Nat.mod_lt _ hppos
    have hk1 : 1 ≤ k := by omega
    have hfr_le : (natDigits (M.natAbs % 10 ^ k)).length ≤ k :=
      natDigits_length_le _ k hk1 hmod
    obtain ⟨hv2, hd2, hne2⟩ := natDigits_spec (M.natAbs % 10 ^ k)
    obtain ⟨hv1, hd1, hne1⟩ := natDigits_spec (M.natAbs / 10 ^ k)
    have hfp_d : ∀ c ∈ List.replicate (k - (natDigits (M.natAbs % 10 ^ k)).length) '0'
        ++ natDigits (M.natAbs % 10 ^ k), c.isDigit = true := by
      intro c hcm
      rcases List.mem_append.mp hcm with h | h
      · rw [(List.mem_replicate.mp h).2]; decide
      · exact hd2 c h
    have hfp_ne : List.replicate (k - (natDigits (M.natAbs % 10 ^ k)).length) '0'
        ++ natDigits (M.natAbs % 10 ^ k) ≠ [] := by
      intro h
      exact hne2 (List.append_eq_nil.mp h).2
    have hfp_len : (List.replicate (k - (natDigits (M.natAbs % 10 ^ k)).length) '0'
        ++ natDigits (M.natAbs % 10 ^ k)).length = k := by
      rw [List.length_append, List.length_replicate]
      omega
    have hdv : digitsVal (natDigits (M.natAbs / 10 ^ k)
        ++ (List.replicate (k - (natDigits (M.natAbs % 10 ^ k)).length) '0'
            ++ natDigits (M.natAbs % 10 ^ k))) = M.natAbs := by
      rw [digitsVal_append, digitsVal_replicate_zero, hv1, hv2, hfp_len,
        Nat.mul_comm (M.natAbs / 10 ^ k) (10 ^ k)]
      exact Nat.div_add_mod M.natAbs (10 ^ k)
    by_cases hM : M < 0
    · have h1 : decRepr ⟨M, k⟩ = String.mk ('-' :: (natDigits (M.natAbs / 10 ^ k)
          ++ '.' :: (List.replicate (k - (natDigits (M.natAbs % 10 ^ k)).length) '0'
              ++ natDigits (M.natAbs % 10 ^ k)))) := by
        simp [decRepr, hk, hM]
      rw [h1, pyFloat_digits_neg _ _ hd1 hfp_d hne1 hfp_ne, hdv, hfp_len]
      have : -((M.natAbs : Nat) : Int) = M := by omega
      rw [this, decNorm_stuck M k hk hm10]
    · have h1 : decRepr ⟨M, k⟩ = String.mk (natDigits (M.natAbs / 10 ^ k)
          ++ '.' :: (List.replicate (k - (natDigits (M.natAbs % 10 ^ k)).length) '0'
              ++ natDigits (M.natAbs % 10 ^ k))) := by
        simp [decRepr, hk, hM]
      rw [h1, pyFloat_digits_pos _ _ hd1 hfp_d hne1 hfp_ne, hdv, hfp_len]
      have : ((M.natAbs : Nat) : Int) = M := by omega
      rw [this, decNorm_stuck M k hk hm10]

/-- Unfolding equation for `Char.toUpper`. -/
theorem charUpper_eq (c : Char) :
    c.toUpper = if c.toNat ≥ 97 ∧ c.toNat ≤ 122 then Char.ofNat (c.toNat - 32) else c := rfl

/-- Unfolding equation for `Char.toLower`. -/
theorem charLower_eq (c : Char) :
    c.toLower = if c.toNat ≥ 65 ∧ c.toNat ≤ 90 then Char.ofNat (c.toNat + 32) else c := rfl

/-- Round trip through `Char.ofNat` for valid code points. -/
theorem charToNat_ofNat (n : Nat) (h : n.isValidChar) : (Char.ofNat n).toNat = n := by
  unfold Char.ofNat
  rw [dif_pos h]
  rfl

/-- Uppercasing is idempotent. -/
theorem charUpper_idem (c : Char) : c.toUpper.toUpper = c.toUpper := by
  by_cases h : c.toNat ≥ 97 ∧ c.toNat ≤ 122
  · have h2 : c.toUpper.toNat = c.toNat - 32 := by
      rw [charUpper_eq c, if_pos h]
      exact charToNat_ofNat _ (Or.inl (by omega))
    rw [charUpper_eq c.toUpper, h2, if_neg (by omega)]
  · have h1 : c.toUpper = c := by rw [charUpper_eq, if_neg h]
    rw [h1, h1]

/-- Lowercasing after uppercasing is plain lowercasing. -/
theorem charLower_upper (c : Char) : c.toUpper.toLower = c.toLower := by
  by_cases h : c.toNat ≥ 97 ∧ c.toNat ≤ 122
  · have h2 : c.toUpper.toNat = c.toNat - 32 := by
      rw [charUpper_eq c, if_pos h]
      exact charToNat_ofNat _ (Or.inl (by omega))
    rw [charLower_eq c.toUpper, h2, if_pos (by omega), charLower_eq c, if_neg (by omega)]
    rw [show c.toNat - 32 + 32 = c.toNat from by omega, Char.ofNat_toNat]
  · have h1 : c.toUpper = c := by rw [charUpper_eq, if_neg h]
    rw [h1]

/-- Python `.upper()` is idempotent. -/
theorem pyUpper_idem (s : String) : pyUpper (pyUpper s) = pyUpper s := by
  simp only [pyUpper]
  rw [show (String.mk (s.toList.map Char.toUpper)).toList
      = s.toList.map Char.toUpper from rfl, List.map_map]
  congr 1
  exact List.map_congr_left (fun c _ => charUpper_idem c)

/-- Python `.lower()` after `.upper()` is plain `.lower()`. -/
theorem pyLower_pyUpper (s : String) : pyLower (pyUpper s) = pyLower s := by
  simp only [pyLower, pyUpper]
  rw [show (String.mk (s.toList.map Char.toUpper)).toList
      = s.toList.map Char.toUpper from rfl, List.map_map]
  congr 1
  exact List.map_congr_left (fun c _ => charLower_upper c)

/-- Uppercasing does not erase a nonempty string. -/
theorem pyUpper_ne_empty (s : String) (h : s ≠ "") : pyUpper s ≠ "" := by
  intro he
  apply h
  have h1 : s.toList.map Char.toUpper = [] := congrArg String.toList he
  have h2 : s.toList = [] := List.map_eq_nil_iff.mp h1
  calc s = String.mk s.toList := rfl
    _ = String.mk [] := by rw [h2]
    _ = "" := rfl

/-- A successful table lookup witnesses table membership. -/
theorem strMapGet_mem : ∀ (l : List (String × String)) (k v : String),
    strMapGet l k = some v → (k, v) ∈ l := by
  intro l
  induction l with
  | nil => intro k v h; cases h
  | cons kv r ih =>
    intro k v h
    obtain ⟨k1, v1⟩ := kv
    simp only [strMapGet] at h
    by_cases hk : k1 = k
    · rw [if_pos hk] at h
      rw [Option.some.injEq] at h
      subst hk; subst h
      exact List.mem_cons_self _ _
    · rw [if_neg hk] at h
      exact List.mem_cons_of_mem _ (ih k v h)

/-- Every value of the material table is a fixed point of normalization. -/
theorem material_map_fixed : ∀ kv ∈ MATERIAL_MAP, normalize_material kv.2 = kv.2 := by
  intro kv h
  fin_cases h <;> decide

/-- Material normalization is idempotent, so the exported `filament_type`
re-imports to the same canonical `material`. -/
theorem normalize_material_idem (m : String) :
    normalize_material (normalize_material m) = normalize_material m := by
  cases hl : strMapGet MATERIAL_MAP (pyReplace (pyReplace (pyLower m) '-' "") '_' "") with
  | some v =>
    have h1 : normalize_material m = v := by
      show (match strMapGet MATERIAL_MAP
            (pyReplace (pyReplace (pyLower m) '-' "") '_' "") with
            | some x => x
            | none => if m = "" then "PLA" else pyUpper m) = v
      rw [hl]
    rw [h1]
    exact material_map_fixed _ (strMapGet_mem _ _ _ hl)
  | none =>
    by_cases hm : m = ""
    · subst hm
      rw [show normalize_material "" = "PLA" from by decide]
      decide
    · have h1 : normalize_material m = pyUpper m := by
        show (match strMapGet MATERIAL_MAP
            (pyReplace (pyReplace (pyLower m) '-' "") '_' "") with
            | some x => x
            | none => if m = "" then "PLA" else pyUpper m) = pyUpper m
        rw [hl, if_neg hm]
      rw [h1]
      show (match strMapGet MATERIAL_MAP
          (pyReplace (pyReplace (pyLower (pyUpper m)) '-' "") '_' "") with
          | some x => x
          | none => if pyUpper m = "" then "PLA" else pyUpper (pyUpper m)) = pyUpper m
      rw [pyLower_pyUpper, hl, if_neg (pyUpper_ne_empty m hm), pyUpper_idem]

/-! ### Claim theorems: concrete scenarios -/

/-- The minimal printer section of claim C7. -/
def cfgC7 : List (String × String) :=
  [("printer_model", "X1"), ("printer_make", "Acme"),
   ("nozzle_diameter", "0.4"), ("bed_shape", "0x0,250x0,250x250,0x250")]

/-- Claim C7: importing the minimal printer section
`{printer_model: "X1", printer_make: "Acme", nozzle_diameter: "0.4",
bed_shape: "0x0,250x0,250x250,0x250"}` produces a canonical printer profile
with `id == "Acme/X1"`, `extruders[0].nozzle_diameter == 0.4`,
`build_volume.x == 250` and `build_volume.y == 250`. -/
theorem importer_minimal_printer_scenario :
    okPath (convert_printer cfgC7) "id" = some (.vstr "Acme/X1") ∧
    okPath (convert_printer cfgC7) "extruders.0.nozzle_diameter"
      = some (.vfloat ⟨4, 1⟩) ∧
    okPath (convert_printer cfgC7) "build_volume.x" = some (.vfloat ⟨250, 0⟩) ∧
    okPath (convert_printer cfgC7) "build_volume.y" = some (.vfloat ⟨250, 0⟩) :=
  ⟨by decide, by decide, by decide, by decide⟩

/-- Claim C2, failing input: `convert_filament` promises per-field recovery,
but its derived temperature-window rule re-runs `float()` on the raw value
outside any `try`, so a document with one malformed `temperature` among
otherwise-valid fields raises `ValueError` instead of returning a profile
with the skeleton default. -/
theorem convert_filament_raises_on_malformed_temperature :
    convert_filament [("filament_diameter", "1.75"), ("temperature", "warm")]
      = .error .valueError := by decide

/-- Claim C1, counterexample: importing `{fan_min_speed: "30"}` sets the
mapped canonical path `fan.min` to `30.0`, but the PrusaSlicer exporter only
synthesizes `filament_type`/`temperature`/`bed_temperature`/`fan_speed`, so
the re-imported profile holds the skeleton default `0` at `fan.min` — the
round trip does not reproduce every mapped canonical value. -/
theorem roundtrip_drops_unexported_mapped_fields :
    okPath (convert_filament [("fan_min_speed", "30")]) "fan.min"
      = some (.vfloat ⟨30, 0⟩) ∧
    okPath (export_reimport_ps [("fan_min_speed", "30")]) "fan.min"
      = some (.vint 0) :=
  ⟨by decide, by decide⟩

/-- The document family used for the positive half of claim C1: filament
sections supplying the three source fields the PrusaSlicer exporter
synthesizes from canonical paths, plus `fan_min_speed`, whose canonical path
the exporter drops. -/
def docC1 (m t b f : String) : List (String × String) :=
  [("filament_type", m), ("temperature", t), ("bed_temperature", b),
   ("fan_min_speed", f)]

/-- Claim C1, amended: the round trip can reproduce canonical values only at
the paths the exporter synthesizes and the importer maps back — `material`,
`nozzle.recommended` and `bed.recommended` for the filament kind and the
PrusaSlicer dialect.  For every document supplying `filament_type`,
`temperature`, `bed_temperature` and `fan_min_speed` with coercible
temperatures and fan speed, those three paths are reproduced exactly, for
all values, while the mapped canonical path `fan.min` reverts to the
skeleton default `0`; and when a synthesized path's source key is omitted,
even that path is not reproduced exactly — a document holding only
`temperature` gets its `int` skeleton default `bed.recommended = 50` back as
the float `50.0`. -/
theorem roundtrip_preserves_exporter_synthesized_fields
    (m t b f : String) (dt db df : Dec)
    (ht : pyFloat t = some dt) (hb : pyFloat b = some db)
    (hf : pyFloat f = some df) :
    okPath (convert_filament (docC1 m t b f)) "material"
        = some (.vstr (normalize_material m)) ∧
    okPath (export_reimport_ps (docC1 m t b f)) "material"
        = some (.vstr (normalize_material m)) ∧
    okPath (convert_filament (docC1 m t b f)) "nozzle.recommended"
        = some (.vfloat dt) ∧
    okPath (export_reimport_ps (docC1 m t b f)) "nozzle.recommended"
        = some (.vfloat dt) ∧
    okPath (convert_filament (docC1 m t b f)) "bed.recommended"
        = some (.vfloat db) ∧
    okPath (export_reimport_ps (docC1 m t b f)) "bed.recommended"
        = some (.vfloat db) ∧
    okPath (convert_filament (docC1 m t b f)) "fan.min" = some (.vfloat df) ∧
    okPath (export_reimport_ps (docC1 m t b f)) "fan.min" = some (.vint 0) ∧
    okPath (convert_filament [("temperature", t)]) "bed.recommended"
        = some (.vint 50) ∧
    okPath (export_reimport_ps [("temperature", t)]) "bed.recommended"
        = some (.vfloat ⟨50, 0⟩) := by
  have hrt : pyFloat (decRepr dt) = some dt :=
    decRepr_roundtrip dt (pyFloat_canon t dt ht)
  have hrb : pyFloat (decRepr db) = some db :=
    decRepr_roundtrip db (pyFloat_canon b db hb)
  have hnm := normalize_material_idem m
  have hjs : ∀ s, jvalToStr (.vstr s) = s := fun s => rfl
  have hjf : ∀ d, jvalToStr (.vfloat d) = decRepr d := fun d => rfl
  have hj50 : jvalToStr (.vint 50) = "50" := by decide
  have hj100 : jvalToStr (.vint 100) = "100" := by decide
  have hp50 : pyFloat "50" = some ⟨50, 0⟩ := by decide
  have hnPLA : normalize_material "PLA" = "PLA" := by decide
  have e1 : pySplitDot "material" = ["material"] := by decide
  have e2 : pySplitDot "nozzle.recommended" = ["nozzle", "recommended"] := by decide
  have e3 : pySplitDot "bed.recommended" = ["bed", "recommended"] := by decide
  have e4 : pySplitDot "fan.min" = ["fan", "min"] := by decide
  have g1 : sIsDigit "material" = false := by decide
  have g2 : sIsDigit "nozzle" = false := by decide
  have g3 : sIsDigit "recommended" = false := by decide
  have g4 : sIsDigit "bed" = false := by decide
  have g5 : sIsDigit "fan" = false := by decide
  have g6 : sIsDigit "min" = false := by decide
  by_cases hm1 : m = ""
  · subst hm1
    have hn0 : normalize_material "" = "PLA" := by decide
    simp [docC1, export_reimport_ps, convert_filament, applyMappings,
      FILAMENT_MAPPINGS, applyEntry, applyCoerce, floatE, cfgGet, cfgGetD,
      set_nested, setGo, alGet, alGetD, alSet, asDict, filamentSkeleton,
      filamentTempStage, filamentBedStage, filamentFanStage, filamentIdStage,
      setIn2, stashRaw, collectRaw, convert_to_prusaslicer, jGetD, pyTruthy,
      stringifyDoc, pyKeyStr, okPath, getPath, getSeg, List.foldl, Bind.bind,
      Except.bind, pure, Except.pure, Except.map, Option.getD, List.map,
      ht, hb, hf, hrt, hrb, hjs, hjf, hj50, hj100, hp50, hn0, hnPLA,
      e1, e2, e3, e4, g1, g2, g3, g4, g5, g6]
  · by_cases hm2 : m = "Unknown"
    · subst hm2
      have hnU : normalize_material "Unknown" = "UNKNOWN" := by decide
      have hnU2 : normalize_material "UNKNOWN" = "UNKNOWN" := by decide
      simp [docC1, export_reimport_ps, convert_filament, applyMappings,
        FILAMENT_MAPPINGS, applyEntry, applyCoerce, floatE, cfgGet, cfgGetD,
        set_nested, setGo, alGet, alGetD, alSet, asDict, filamentSkeleton,
        filamentTempStage, filamentBedStage, filamentFanStage, filamentIdStage,
        setIn2, stashRaw, collectRaw, convert_to_prusaslicer, jGetD, pyTruthy,
        stringifyDoc, pyKeyStr, okPath, getPath, getSeg, List.foldl, Bind.bind,
        Except.bind, pure, Except.pure, Except.map, Option.getD, List.map,
        ht, hb, hf, hrt, hrb, hjs, hjf, hj50, hj100, hp50, hnU, hnU2, hnPLA,
        e1, e2, e3, e4, g1, g2, g3, g4, g5, g6]
    · by_cases hM1 : normalize_material m = ""
      · exfalso
        rw [hM1, show normalize_material "" = "PLA" from by decide] at hnm
        exact absurd hnm (by decide)
      · by_cases hM2 : normalize_material m = "Unknown"
        · exfalso
          rw [hM2, show normalize_material "Unknown" = "UNKNOWN" from by decide] at hnm
          exact absurd hnm (by decide)
        · simp [docC1, export_reimport_ps, convert_filament, applyMappings,
            FILAMENT_MAPPINGS, applyEntry, applyCoerce, floatE, cfgGet, cfgGetD,
            set_nested, setGo, alGet, alGetD, alSet, asDict, filamentSkeleton,
            filamentTempStage, filamentBedStage, filamentFanStage, filamentIdStage,
            setIn2, stashRaw, collectRaw, convert_to_prusaslicer, jGetD, pyTruthy,
            stringifyDoc, pyKeyStr, okPath, getPath, getSeg, List.foldl, Bind.bind,
            Except.bind, pure, Except.pure, Except.map, Option.getD, List.map,
            ht, hb, hf, hrt, hrb, hnm, hjs, hjf, hj50, hj100, hp50, hnPLA,
            hm1, hm2, hM1, hM2, e1, e2, e3, e4, g1, g2, g3, g4, g5, g6]

/-- Claim C1, witness: the general round-trip theorem evaluated on the
document `{filament_type: "PETG", temperature: "235", bed_temperature: "80",
fan_min_speed: "30"}` and, for the omitted-key caveat, `{temperature:
"235"}`. -/
theorem roundtrip_preserves_exporter_synthesized_fields_witness :
    pyFloat "235" = some ⟨235, 0⟩ ∧ pyFloat "80" = some ⟨80, 0⟩ ∧
    pyFloat "30" = some ⟨30, 0⟩ ∧
    (okPath (convert_filament (docC1 "PETG" "235" "80" "30")) "material"
        = some (.vstr (normalize_material "PETG")) ∧
      okPath (export_reimport_ps (docC1 "PETG" "235" "80" "30")) "material"
        = some (.vstr (normalize_material "PETG")) ∧
      okPath (convert_filament (docC1 "PETG" "235" "80" "30")) "nozzle.recommended"
        = some (.vfloat ⟨235, 0⟩) ∧
      okPath (export_reimport_ps (docC1 "PETG" "235" "80" "30")) "nozzle.recommended"
        = some (.vfloat ⟨235, 0⟩) ∧
      okPath (convert_filament (docC1 "PETG" "235" "80" "30")) "bed.recommended"
        = some (.vfloat ⟨80, 0⟩) ∧
      okPath (export_reimport_ps (docC1 "PETG" "235" "80" "30")) "bed.recommended"
        = some (.vfloat ⟨80, 0⟩) ∧
      okPath (convert_filament (docC1 "PETG" "235" "80" "30")) "fan.min"
        = some (.vfloat ⟨30, 0⟩) ∧
      okPath (export_reimport_ps (docC1 "PETG" "235" "80" "30")) "fan.min"
        = some (.vint 0) ∧
      okPath (convert_filament [("temperature", "235")]) "bed.recommended"
        = some (.vint 50) ∧
      okPath (export_reimport_ps [("temperature", "235")]) "bed.recommended"
        = some (.vfloat ⟨50, 0⟩)) :=
  ⟨by decide, by decide, by decide,
    roundtrip_preserves_exporter_synthesized_fields "PETG" "235" "80" "30"
      ⟨235, 0⟩ ⟨80, 0⟩ ⟨30, 0⟩ (by decide) (by decide) (by decide)⟩

/-- Claim C5, counterexample: the diff engine compares with Python `==`,
under which `50 == 50.0`, so two profiles holding `50` (int) and `50.0`
(float) at the same leaf path produce no `"different"` entry at all. -/
theorem diff_int_float_equal_not_reported :
    (compare_profiles [(.ks "v", .vint 50)] [(.ks "v", .vfloat ⟨50, 0⟩)]
      false).differences = [] ∧
    (compare_profiles [(.ks "v", .vint 50)] [(.ks "v", .vfloat ⟨50, 0⟩)]
      false).stats.modified = 0 :=
  ⟨by decide, by decide⟩

/-- Claim C5, amended: value equality in the diff engine is Python `==`:
numeric-tolerant across int/float (an int equals a float exactly when their
numeric values agree), while a number and its string spelling stay unequal
and are reported as `"different"`. -/
theorem compare_values_numeric_tolerant :
    (∀ (n : Int) (d : Dec),
      compare_values (.vint n) (.vfloat d) = decide ((n : ℚ) = d.toRat)) ∧
    compare_values (.vstr "50") (.vint 50) = false ∧
    (compare_profiles [(.ks "v", .vint 50)] [(.ks "v", .vstr "50")]
      false).stats.modified = 1 := by
  refine ⟨fun n d => ?_, by decide, by decide⟩
  have h : (n * 10 ^ d.exp = d.man * 10 ^ (0:Nat)) ↔ ((n : ℚ) = d.toRat) := by
    rw [Dec.toRat, eq_div_iff (by positivity : ((10 : ℚ) ^ d.exp) ≠ 0), pow_zero, mul_one]
    constructor
    · intro hh
      exact_mod_cast hh
    · intro hh
      exact_mod_cast hh
  show decide (n * 10 ^ d.exp = d.man * 10 ^ (0:Nat)) = decide ((n : ℚ) = d.toRat)
  exact decide_eq_decide.mpr h

/-- Claim C3, counterexample: on `{"a": 5}` the write `a.0.c` must descend
into the scalar at `a`; `set_nested` rebinds its cursor to a fresh list,
returns without any exception, leaves the container unchanged, and a get of
the same path finds nothing — the written value is silently lost. -/
theorem set_nested_silent_loss_on_digit_over_scalar :
    set_nested (.vdict [(.ks "a", .vint 5)]) "a.0.c" (.vint 42)
      = (.vdict [(.ks "a", .vint 5)], none) ∧
    getPath (.vdict [(.ks "a", .vint 5)]) "a.0.c" = none :=
  ⟨by decide, by decide⟩

/-- Discriminator used to state the conflict policy. -/
def isDictB : JVal → Bool
  | .vdict _ => true
  | _ => false

/-- Discriminator used to state the conflict policy. -/
def isListB : JVal → Bool
  | .vlist _ => true
  | _ => false

/-- Claim C3, amended: when a non-digit segment must descend into an
existing non-dict value the setter raises `TypeError`; but when an all-digit
segment must descend into an existing non-list value, the setter returns
without error and the write is silently lost (the container is returned
unchanged). -/
theorem set_nested_conflict_policy (s v : JVal) :
    (isDictB s = false →
      (setGo (.vdict [(.ks "a", s)]) ["a", "b", "c"] v).2 = some .typeError) ∧
    (isListB s = false →
      setGo (.vdict [(.ks "a", s)]) ["a", "0", "c"] v
        = (.vdict [(.ks "a", s)], none)) := by
  constructor
  · intro hs
    cases s <;> simp [isDictB] at hs ⊢ <;> rfl
  · intro hl
    cases s <;> simp [isListB] at hl ⊢ <;> rfl

/-- Witness for the amended claim C3 at the scalar `5`. -/
theorem set_nested_conflict_policy_witness :
    isDictB (.vint 5) = false ∧ isListB (.vint 5) = false ∧
    (setGo (.vdict [(.ks "a", .vint 5)]) ["a", "b", "c"] (.vint 7)).2
      = some .typeError ∧
    setGo (.vdict [(.ks "a", .vint 5)]) ["a", "0", "c"] (.vint 7)
      = (.vdict [(.ks "a", .vint 5)], none) :=
  ⟨by decide, by decide,
   (set_nested_conflict_policy (.vint 5) (.vint 7)).1 (by decide),
   (set_nested_conflict_policy (.vint 5) (.vint 7)).2 (by decide)⟩

/-- Claim C6, counterexample: at a final all-digit segment `set_nested`
assigns `d[int(seg)]` directly — writing index `0` into an empty list
raises `IndexError` instead of padding. -/
theorem set_nested_final_index_raises :
    set_nested (.vdict [(.ks "xs", .vlist [])]) "xs.0" (.vint 1)
      = (.vdict [(.ks "xs", .vlist [])], some .indexError) := by decide

theorem getD_replicate (n : Nat) (a dflt : JVal) :
    (List.replicate (n + 1) a).getD n dflt = a := by
  induction n with
  | zero => rfl
  | succ n ih => simpa [List.replicate_succ] using ih

theorem set_replicate_last (n : Nat) (a c : JVal) :
    (List.replicate (n + 1) a).set n c = List.replicate n a ++ [c] := by
  induction n with
  | zero => rfl
  | succ n ih =>
    rw [List.replicate_succ, List.set_cons_succ, ih, List.replicate_succ, List.cons_append]

/-- Claim C6, amended: an intermediate all-digit segment over a list pads
with empty dicts up to the required index and stores beneath it; the final
all-digit segment is assigned directly, so on a list any index at or past
the length raises `IndexError` rather than padding. -/
theorem set_nested_digit_segment_semantics (s : String) (n : Nat) (v : JVal)
    (hd : sIsDigit s = true) (hn : digitsVal s.toList = n) :
    setGo (.vdict [(.ks "xs", .vlist [])]) ["xs", s, "leaf"] v
      = (.vdict [(.ks "xs", .vlist
          (List.replicate n (.vdict []) ++ [.vdict [(.ks "leaf", v)]]))], none) ∧
    setGo (.vdict [(.ks "xs", .vlist [])]) ["xs", s] v
      = (.vdict [(.ks "xs", .vlist [])], some .indexError) := by
  constructor
  · show (JVal.vdict (alSet [(.ks "xs", .vlist [])] (.ks "xs")
        (setGo (.vlist []) [s, "leaf"] v).1), (setGo (.vlist []) [s, "leaf"] v).2) = _
    have h2 : setGo (.vlist []) [s, "leaf"] v
        = (.vlist (List.replicate n (.vdict []) ++ [.vdict [(.ks "leaf", v)]]), none) := by
      show (if sIsDigit s then _ else _) = _
      rw [if_pos hd]
      simp only [hn, padTo, List.length_nil, Nat.sub_zero, List.nil_append]
      rw [getD_replicate n (.vdict []) (.vdict [])]
      show (JVal.vlist ((List.replicate (n+1) (.vdict [])).set n
          (.vdict (alSet [] (.ks "leaf") v))), none) = _
      rw [set_replicate_last]
      rfl
    rw [h2]
    rfl
  · show (JVal.vdict (alSet [(.ks "xs", .vlist [])] (.ks "xs")
        (setGo (.vlist []) [s] v).1), (setGo (.vlist []) [s] v).2) = _
    have h2 : setGo (.vlist []) [s] v = (.vlist [], some .indexError) := by
      show (if sIsDigit s then _ else _) = _
      rw [if_pos hd]
      rfl
    rw [h2]
    rfl

/-- Witness for the amended claim C6 at segment `"3"`. -/
theorem set_nested_digit_segment_semantics_witness :
    sIsDigit "3" = true ∧ digitsVal "3".toList = 3 ∧
    setGo (.vdict [(.ks "xs", .vlist [])]) ["xs", "3", "leaf"] (.vstr "hi")
      = (.vdict [(.ks "xs", .vlist
          (List.replicate 3 (.vdict []) ++ [.vdict [(.ks "leaf", .vstr "hi")]]))], none) ∧
    setGo (.vdict [(.ks "xs", .vlist [])]) ["xs", "3"] (.vstr "hi")
      = (.vdict [(.ks "xs", .vlist [])], some .indexError) :=
  ⟨by decide, by decide,
   (set_nested_digit_segment_semantics "3" 3 (.vstr "hi") (by decide) (by decide)).1,
   (set_nested_digit_segment_semantics "3" 3 (.vstr "hi") (by decide) (by decide)).2⟩

/-! ### Claim theorems: exporter relay behavior -/

/-- Claim C4, counterexample: a printer profile with a non-empty `x_cura`
block lacking `definition_changes` exports to Cura as the empty document,
not as the block itself — the verbatim-relay rule fails for the printer kind
on the Cura dialect. -/
theorem cura_printer_export_not_verbatim :
    convert_to_cura (.vdict [(.ks "op3d_schema", .vstr "printer"),
        (.ks "x_cura", .vdict [(.ks "machine_width", .vint 999)])])
      = .ok (.vdict []) ∧
    JVal.vdict ([] : Fields)
      ≠ .vdict [(.ks "machine_width", .vint 999)] :=
  ⟨by decide, by decide⟩

/-- Claim C4, amended: a non-empty vendor-extension block is returned
verbatim for the filament kind on all four dialects and for the printer
kind on PrusaSlicer, Orca and Bambu; for the printer kind on Cura the
relay instead returns the `definition_changes` member of `x_cura` (empty
document when absent). -/
theorem vendor_block_relay :
    (∀ (fs gs : Fields), alGet fs (.ks "op3d_schema") = some (.vstr "filament") →
      alGet fs (.ks "x_cura") = some (.vdict gs) → gs ≠ [] →
      convert_to_cura (.vdict fs) = .ok (.vdict gs)) ∧
    (∀ (fs gs : Fields), alGet fs (.ks "op3d_schema") = some (.vstr "filament") →
      alGet fs (.ks "x_prusaslicer") = some (.vdict gs) → gs ≠ [] →
      convert_to_prusaslicer (.vdict fs) = .ok (.vdict gs)) ∧
    (∀ (fs gs : Fields), alGet fs (.ks "op3d_schema") = some (.vstr "filament") →
      alGet fs (.ks "x_orca") = some (.vdict gs) → gs ≠ [] →
      convert_to_orca (.vdict fs) = .ok (.vdict gs)) ∧
    (∀ (fs gs : Fields), alGet fs (.ks "op3d_schema") = some (.vstr "filament") →
      alGet fs (.ks "x_bambu") = some (.vdict gs) → gs ≠ [] →
      convert_to_bambu (.vdict fs) = .ok (.vdict gs)) ∧
    (∀ (fs gs : Fields), alGet fs (.ks "op3d_schema") = some (.vstr "printer") →
      alGet fs (.ks "x_prusaslicer") = some (.vdict gs) → gs ≠ [] →
      convert_to_prusaslicer (.vdict fs) = .ok (.vdict gs)) ∧
    (∀ (fs gs : Fields), alGet fs (.ks "op3d_schema") = some (.vstr "printer") →
      alGet fs (.ks "x_orca") = some (.vdict gs) → gs ≠ [] →
      convert_to_orca (.vdict fs) = .ok (.vdict gs)) ∧
    (∀ (fs gs : Fields), alGet fs (.ks "op3d_schema") = some (.vstr "printer") →
      alGet fs (.ks "x_bambu") = some (.vdict gs) → gs ≠ [] →
      convert_to_bambu (.vdict fs) = .ok (.vdict gs)) ∧
    (∀ (fs gs : Fields), alGet fs (.ks "op3d_schema") = some (.vstr "printer") →
      alGet fs (.ks "x_cura") = some (.vdict gs) → gs ≠ [] →
      convert_to_cura (.vdict fs) = .ok (alGetD gs (.ks "definition_changes") (.vdict []))) := by
  refine ⟨?_, ?_, ?_, ?_, ?_, ?_, ?_, ?_⟩
  all_goals
    intro fs gs h1 h2 h3
    have h4 : gs.isEmpty = false := by
      cases gs
      · exact absurd rfl h3
      · rfl
    simp [convert_to_cura, convert_to_prusaslicer, convert_to_orca, convert_to_bambu,
      jGetD, alGetD, h1, h2, h4, pyTruthy, Bind.bind, Except.bind, pure, Except.pure]

/-- Witness for the amended claim C4: the claim's own filament scenario, a
profile whose `x_cura` holds `{print_temperature: 999}`. -/
theorem vendor_block_relay_witness :
    alGet [(PyKey.ks "op3d_schema", JVal.vstr "filament"),
        (PyKey.ks "nozzle", JVal.vdict [(PyKey.ks "recommended", JVal.vint 205)]),
        (PyKey.ks "x_cura", JVal.vdict [(PyKey.ks "print_temperature", JVal.vint 999)])]
      (.ks "op3d_schema") = some (.vstr "filament") ∧
    alGet [(PyKey.ks "op3d_schema", JVal.vstr "filament"),
        (PyKey.ks "nozzle", JVal.vdict [(PyKey.ks "recommended", JVal.vint 205)]),
        (PyKey.ks "x_cura", JVal.vdict [(PyKey.ks "print_temperature", JVal.vint 999)])]
      (.ks "x_cura") = some (.vdict [(PyKey.ks "print_temperature", JVal.vint 999)]) ∧
    convert_to_cura (.vdict [(PyKey.ks "op3d_schema", JVal.vstr "filament"),
        (PyKey.ks "nozzle", JVal.vdict [(PyKey.ks "recommended", JVal.vint 205)]),
        (PyKey.ks "x_cura", JVal.vdict [(PyKey.ks "print_temperature", JVal.vint 999)])])
      = .ok (.vdict [(PyKey.ks "print_temperature", JVal.vint 999)]) :=
  ⟨by decide, by decide,
   vendor_block_relay.1 _ [(PyKey.ks "print_temperature", JVal.vint 999)]
     (by decide) (by decide) (by decide)⟩

/-- Claim C10: a profile whose `op3d_schema` is neither `"filament"` nor
`"printer"` (including the recognized kind `"process"`) exports to each of
the four dialects as the empty document, with no exception raised. -/
theorem export_unknown_schema_empty (fs : Fields)
    (h1 : alGetD fs (.ks "op3d_schema") (.vstr "") ≠ .vstr "filament")
    (h2 : alGetD fs (.ks "op3d_schema") (.vstr "") ≠ .vstr "printer") :
    convert_to_cura (.vdict fs) = .ok (.vdict []) ∧
    convert_to_prusaslicer (.vdict fs) = .ok (.vdict []) ∧
    convert_to_orca (.vdict fs) = .ok (.vdict []) ∧
    convert_to_bambu (.vdict fs) = .ok (.vdict []) := by
  refine ⟨?_, ?_, ?_, ?_⟩ <;>
    simp [convert_to_cura, convert_to_prusaslicer, convert_to_orca, convert_to_bambu,
      jGetD, h1, h2, Bind.bind, Except.bind, pure, Except.pure]

/-- Witness for claim C10 at a process profile. -/
theorem export_unknown_schema_empty_witness :
    alGetD [(PyKey.ks "op3d_schema", JVal.vstr "process")] (.ks "op3d_schema") (.vstr "")
      ≠ .vstr "filament" ∧
    alGetD [(PyKey.ks "op3d_schema", JVal.vstr "process")] (.ks "op3d_schema") (.vstr "")
      ≠ .vstr "printer" ∧
    convert_to_cura (.vdict [(PyKey.ks "op3d_schema", JVal.vstr "process")]) = .ok (.vdict []) ∧
    convert_to_prusaslicer (.vdict [(PyKey.ks "op3d_schema", JVal.vstr "process")]) = .ok (.vdict []) ∧
    convert_to_orca (.vdict [(PyKey.ks "op3d_schema", JVal.vstr "process")]) = .ok (.vdict []) ∧
    convert_to_bambu (.vdict [(PyKey.ks "op3d_schema", JVal.vstr "process")]) = .ok (.vdict []) :=
  ⟨by decide, by decide,
   (export_unknown_schema_empty _ (by decide) (by decide)).1,
   (export_unknown_schema_empty _ (by decide) (by decide)).2.1,
   (export_unknown_schema_empty _ (by decide) (by decide)).2.2.1,
   (export_unknown_schema_empty _ (by decide) (by decide)).2.2.2⟩

/-! ### Claim C9: failed coercions are dropped entirely -/

theorem cfgGet_append (l1 l2 : List (String × String)) (k : String) :
    cfgGet (l1 ++ l2) k
      = match cfgGet l1 k with
        | some v => some v
        | none => cfgGet l2 k := by
  induction l1 with
  | nil => simp [cfgGet]
  | cons kv rest ih =>
    obtain ⟨k1, v⟩ := kv
    by_cases h : k1 = k <;> simp [cfgGet, h, ih]

theorem cfgGet_append_ne (cfg : List (String × String)) (key s k : String)
    (h : k ≠ key) : cfgGet (cfg ++ [(key, s)]) k = cfgGet cfg k := by
  rw [cfgGet_append]
  cases hc : cfgGet cfg k with
  | some v => rfl
  | none =>
    show cfgGet [(key, s)] k = none
    unfold cfgGet
    rw [if_neg (fun hh : key = k => h hh.symm)]
    rfl

theorem cfgGet_append_hit (cfg : List (String × String)) (key s : String)
    (h : cfgGet cfg key = none) : cfgGet (cfg ++ [(key, s)]) key = some s := by
  rw [cfgGet_append, h]
  simp [cfgGet]

theorem cfgGet_isSome_of_mem (cfg : List (String × String)) {k v : String}
    (h : (k, v) ∈ cfg) : ∃ w, cfgGet cfg k = some w := by
  induction cfg with
  | nil => cases h
  | cons kv rest ih =>
    obtain ⟨k1, v1⟩ := kv
    by_cases hk : k1 = k
    · exact ⟨v1, by simp [cfgGet, hk]⟩
    · rcases List.mem_cons.mp h with he | h2
      · exact absurd (congrArg Prod.fst he).symm hk
      · obtain ⟨w, hw⟩ := ih h2
        exact ⟨w, by simp [cfgGet, hk, hw]⟩

theorem foldl_congr_mem {α β : Type} {l : List α} {f g : β → α → β} {b : β}
    (h : ∀ a ∈ l, ∀ x, f x a = g x a) : l.foldl f b = l.foldl g b := by
  induction l generalizing b with
  | nil => rfl
  | cons a rest ih =>
    rw [List.foldl_cons, List.foldl_cons, h a (List.mem_cons_self a rest)]
    exact ih (fun a2 ha2 x => h a2 (List.mem_cons_of_mem _ ha2) x)

theorem mem_unique_fst {α β : Type} : ∀ (l : List (α × β)),
    (l.map Prod.fst).Nodup → ∀ {a b : α × β}, a ∈ l → b ∈ l → a.1 = b.1 → a = b := by
  intro l
  induction l with
  | nil => intro _ a b ha; cases ha
  | cons c rest ih =>
    intro hn a b ha hb h
    rw [List.map_cons, List.nodup_cons] at hn
    rcases List.mem_cons.mp ha with rfl | ha2
    · rcases List.mem_cons.mp hb with rfl | hb2
      · rfl
      · exact absurd (h ▸ List.mem_map_of_mem Prod.fst hb2) hn.1
    · rcases List.mem_cons.mp hb with rfl | hb2
      · exact absurd (h ▸ List.mem_map_of_mem Prod.fst ha2) hn.1
      · exact ih hn.2 ha2 hb2 h

theorem applyMappings_append_failed (cfg : List (String × String)) (key s path : String)
    (co : Coerce) (hmem : (key, path, co) ∈ PRINTER_MAPPINGS)
    (hfail : applyCoerce co s = .error .valueError)
    (habs : cfgGet cfg key = none) (p : JVal) :
    applyMappings (cfg ++ [(key, s)]) PRINTER_MAPPINGS p
      = applyMappings cfg PRINTER_MAPPINGS p := by
  unfold applyMappings
  apply foldl_congr_mem
  intro e he acc
  congr 1
  funext prof
  by_cases hk : e.1 = key
  · have he2 : e = (key, path, co) :=
      mem_unique_fst PRINTER_MAPPINGS (by decide) he hmem hk
    subst he2
    simp [applyEntry, cfgGet_append_hit cfg key s habs, habs, hfail]
  · simp [applyEntry, cfgGet_append_ne cfg key s e.1 hk]

theorem cfgGetD_append_ne (cfg : List (String × String)) (key s k d : String)
    (h : k ≠ key) : cfgGetD (cfg ++ [(key, s)]) k d = cfgGetD cfg k d := by
  unfold cfgGetD
  rw [cfgGet_append_ne cfg key s k h]

theorem printerBedStage_append (cfg : List (String × String)) (key s : String)
    (h : "bed_shape" ≠ key) :
    printerBedStage (cfg ++ [(key, s)]) = printerBedStage cfg := by
  funext fs
  unfold printerBedStage
  rw [cfgGetD_append_ne cfg key s "bed_shape" "" h]

theorem infer_kinematics_append (cfg : List (String × String)) (key s : String)
    (h1 : "printer_type" ≠ key) (h2 : "printer_notes" ≠ key) :
    infer_kinematics (cfg ++ [(key, s)]) = infer_kinematics cfg := by
  unfold infer_kinematics
  rw [cfgGetD_append_ne cfg key s "printer_type" "" h1,
    cfgGetD_append_ne cfg key s "printer_notes" "" h2]

theorem printerIdStage_append (cfg : List (String × String)) (key s : String)
    (h1 : "printer_model" ≠ key) (h2 : "printer_make" ≠ key) :
    printerIdStage (cfg ++ [(key, s)]) = printerIdStage cfg := by
  funext fs
  unfold printerIdStage
  rw [cfgGet_append_ne cfg key s "printer_model" h1,
    cfgGetD_append_ne cfg key s "printer_make" "Unknown" h2]

theorem collectRaw_append (cfg : List (String × String)) (key s : String)
    (mapped : List String) (hkey : key ∈ mapped) :
    collectRaw (cfg ++ [(key, s)]) mapped = collectRaw cfg mapped := by
  unfold collectRaw
  rw [List.foldl_append, List.foldl_cons, List.foldl_nil]
  show (if key ∈ mapped then _ else _) = _
  rw [if_pos hkey]
  apply foldl_congr_mem
  intro kv hkv acc
  by_cases hm : kv.1 ∈ mapped
  · rw [if_pos hm, if_pos hm]
  · obtain ⟨k1, v1⟩ := kv
    obtain ⟨w, hw⟩ := cfgGet_isSome_of_mem cfg hkv
    rw [if_neg hm, if_neg hm]
    unfold cfgGetD
    rw [cfgGet_append, hw]

theorem stashRaw_append (cfg : List (String × String)) (key s : String)
    (mapped : List String) (hkey : key ∈ mapped) :
    stashRaw (cfg ++ [(key, s)]) mapped = stashRaw cfg mapped := by
  funext fs
  unfold stashRaw
  rw [collectRaw_append cfg key s mapped hkey]

theorem convert_printer_append_failed (cfg : List (String × String))
    (key s path : String) (co : Coerce)
    (hmem : (key, path, co) ∈ PRINTER_MAPPINGS)
    (hfail : applyCoerce co s = .error .valueError)
    (hnd : key ∉ (["bed_shape", "printer_type", "printer_notes",
      "printer_model", "printer_make"] : List String))
    (habs : cfgGet cfg key = none) :
    convert_printer (cfg ++ [(key, s)]) = convert_printer cfg := by
  have hne : ∀ x ∈ (["bed_shape", "printer_type", "printer_notes",
      "printer_model", "printer_make"] : List String), x ≠ key := by
    intro x hx he
    exact hnd (he ▸ hx)
  have hmap := applyMappings_append_failed cfg key s path co hmem hfail habs printerSkeleton
  have hbed := printerBedStage_append cfg key s (hne _ (by simp))
  have hkin := infer_kinematics_append cfg key s
    (hne "printer_type" (by simp)) (hne "printer_notes" (by simp))
  have hid := printerIdStage_append cfg key s
    (hne "printer_model" (by simp)) (hne "printer_make" (by simp))
  have hstash := stashRaw_append cfg key s (PRINTER_MAPPINGS.map (fun e => e.1))
    (List.mem_map_of_mem (fun e => e.1) hmem)
  unfold convert_printer
  rw [hmap, hbed, hkin, hid, hstash]

/-- Claim C9, amended: in `convert_printer`, a config key listed in
`PRINTER_MAPPINGS` whose raw value fails its coercion is dropped entirely —
the resulting profile is identical to the one imported without that key, so
the canonical field keeps its default and nothing reaches `x_prusaslicer`
(the stash loop tests only mapping-table membership).  The hypothesis on the
derived-rule keys is vacuous here: every `PRINTER_MAPPINGS` key a derived
rule re-reads is string-coerced and cannot fail. -/
theorem failed_coercion_key_dropped_entirely (key path : String) (co : Coerce)
    (hmem : (key, path, co) ∈ PRINTER_MAPPINGS)
    (cfg : List (String × String)) (s : String)
    (hfail : applyCoerce co s = .error .valueError)
    (habs : cfgGet cfg key = none) :
    convert_printer (cfg ++ [(key, s)]) = convert_printer cfg := by
  apply convert_printer_append_failed cfg key s path co hmem hfail ?_ habs
  fin_cases hmem <;> first
    | decide
    | simp [applyCoerce] at hfail

/-- Witness for claim C9: `max_print_speed = "fast"` added to a one-key
config changes nothing. -/
theorem failed_coercion_key_dropped_entirely_witness :
    (("max_print_speed", "speed.max", Coerce.cfloat) ∈ PRINTER_MAPPINGS) ∧
    applyCoerce .cfloat "fast" = .error .valueError ∧
    cfgGet [("printer_model", "X1")] "max_print_speed" = none ∧
    convert_printer ([("printer_model", "X1")] ++ [("max_print_speed", "fast")])
      = convert_printer [("printer_model", "X1")] :=
  ⟨by decide, by decide, by decide,
   failed_coercion_key_dropped_entirely "max_print_speed" "speed.max" .cfloat
     (by decide) [("printer_model", "X1")] "fast" (by decide) (by decide)⟩

/-- Claim C9, counterexample to the all-kinds reading: in
`convert_filament` the mapped key `temperature` with an uncoercible value is
not dropped — the derived temperature-window rule re-reads it and raises, so
no profile is produced at all. -/
theorem failed_coercion_derived_key_raises :
    (("temperature", "nozzle.recommended", Coerce.cfloat) ∈ FILAMENT_MAPPINGS) ∧
    applyCoerce .cfloat "warm" = .error .valueError ∧
    convert_filament [("filament_diameter", "1.75"), ("filament_type", "PLA"),
        ("temperature", "warm")]
      = .error .valueError :=
  ⟨by decide, by decide, by decide⟩

/-! ### Claim C8: diffing a profile against itself -/

theorem alSet_notmem {κ : Type} [DecidableEq κ] (l : List (κ × JVal)) (k : κ) (v : JVal)
    (h : k ∉ l.map Prod.fst) : alSet l k v = l ++ [(k, v)] := by
  induction l with
  | nil => rfl
  | cons kv rest ih =>
    obtain ⟨k1, v1⟩ := kv
    rw [List.map_cons, List.mem_cons] at h
    push_neg at h
    show (if k1 = k then (k, v) :: rest else (k1, v1) :: alSet rest k v) = _
    rw [if_neg (fun he : k1 = k => h.1 he.symm), ih h.2, List.cons_append]

theorem pyDictOfS_aux (l : List (String × JVal)) :
    ∀ acc : List (String × JVal), (((acc ++ l).map Prod.fst).Nodup) →
    l.foldl (fun a kv => alSet a kv.1 kv.2) acc = acc ++ l := by
  induction l with
  | nil => intro acc _; simp
  | cons kv rest ih =>
    intro acc h
    obtain ⟨k, v⟩ := kv
    have hk : k ∉ acc.map Prod.fst := by
      intro hm
      rw [List.map_append] at h
      exact (List.nodup_append.mp h).2.2 hm (by simp)
    rw [List.foldl_cons]
    show rest.foldl (fun a kv => alSet a kv.1 kv.2) (alSet acc k v) = _
    rw [alSet_notmem acc k v hk]
    have h2 : (((acc ++ [(k, v)]) ++ rest).map Prod.fst).Nodup := by
      simpa [List.append_assoc] using h
    rw [ih (acc ++ [(k, v)]) h2, List.append_assoc]
    rfl

theorem pyDictOfS_id (l : List (String × JVal)) (h : (l.map Prod.fst).Nodup) :
    pyDictOfS l = l := by
  have := pyDictOfS_aux l [] (by simpa using h)
  simpa [pyDictOfS] using this

theorem alGet_isSome_of_mem_keys {κ : Type} [DecidableEq κ] (l : List (κ × JVal)) (k : κ)
    (h : k ∈ l.map Prod.fst) : ∃ v, alGet l k = some v := by
  induction l with
  | nil => cases h
  | cons kv rest ih =>
    obtain ⟨k1, v1⟩ := kv
    by_cases hk : k1 = k
    · exact ⟨v1, by simp [alGet, hk]⟩
    · rcases List.mem_cons.mp h with he | h2
      · exact absurd he.symm hk
      · obtain ⟨w, hw⟩ := ih h2
        exact ⟨w, by simp [alGet, hk, hw]⟩

theorem alGet_mem {κ : Type} [DecidableEq κ] (l : List (κ × JVal)) (k : κ) (v : JVal)
    (h : alGet l k = some v) : (k, v) ∈ l := by
  induction l with
  | nil => cases h
  | cons kv rest ih =>
    obtain ⟨k1, v1⟩ := kv
    by_cases hk : k1 = k
    · rw [alGet, if_pos hk] at h
      subst hk
      cases h
      exact List.mem_cons_self _ _
    · rw [alGet, if_neg hk] at h
      exact List.mem_cons_of_mem _ (ih h)

theorem alGet_of_mem_nodup {κ : Type} [DecidableEq κ] (l : List (κ × JVal))
    (hn : (l.map Prod.fst).Nodup) {k : κ} {v : JVal} (h : (k, v) ∈ l) :
    alGet l k = some v := by
  induction l with
  | nil => cases h
  | cons kv rest ih =>
    obtain ⟨k1, v1⟩ := kv
    rw [List.map_cons, List.nodup_cons] at hn
    rcases List.mem_cons.mp h with he | h2
    · rw [alGet, if_pos (congrArg Prod.fst he).symm]
      cases he
      rfl
    · have hk : ¬ k1 = k := by
        intro he
        apply hn.1
        rw [he]
        exact List.mem_map.mpr ⟨(k, v), h2, rfl⟩
      rw [alGet, if_neg hk]
      exact ih hn.2 h2

theorem mem_uniqKeysAux (a : String) :
    ∀ (l seen : List String), a ∈ uniqKeysAux seen l ↔ (a ∈ l ∧ a ∉ seen) := by
  intro l
  induction l with
  | nil => intro seen; simp [uniqKeysAux]
  | cons k r ih =>
    intro seen
    by_cases hk : k ∈ seen
    · rw [uniqKeysAux, if_pos hk, ih seen]
      constructor
      · exact fun h => ⟨List.mem_cons_of_mem _ h.1, h.2⟩
      · rintro ⟨h1, h2⟩
        rcases List.mem_cons.mp h1 with rfl | h3
        · exact absurd hk h2
        · exact ⟨h3, h2⟩
    · rw [uniqKeysAux, if_neg hk]
      constructor
      · intro h
        rcases List.mem_cons.mp h with rfl | h2
        · exact ⟨List.mem_cons_self _ _, hk⟩
        · have := (ih (k :: seen)).mp h2
          exact ⟨List.mem_cons_of_mem _ this.1, fun hs => this.2 (List.mem_cons_of_mem _ hs)⟩
      · rintro ⟨h1, h2⟩
        rcases List.mem_cons.mp h1 with rfl | h3
        · exact List.mem_cons_self _ _
        · by_cases hak : a = k
          · subst hak
            exact List.mem_cons_self _ _
          · exact List.mem_cons_of_mem _ ((ih (k :: seen)).mpr
              ⟨h3, fun hs => (List.mem_cons.mp hs).elim hak h2⟩)

theorem nodup_uniqKeysAux : ∀ (l seen : List String), (uniqKeysAux seen l).Nodup := by
  intro l
  induction l with
  | nil => intro seen; simp [uniqKeysAux]
  | cons k r ih =>
    intro seen
    by_cases hk : k ∈ seen
    · rw [uniqKeysAux, if_pos hk]
      exact ih seen
    · rw [uniqKeysAux, if_neg hk]
      refine List.nodup_cons.mpr ⟨?_, ih (k :: seen)⟩
      intro hmem
      exact ((mem_uniqKeysAux k r (k :: seen)).mp hmem).2 (List.mem_cons_self _ _)

theorem mem_insertSorted (x a : String) : ∀ l : List String,
    a ∈ insertSorted x l ↔ a = x ∨ a ∈ l := by
  intro l
  induction l with
  | nil => simp [insertSorted]
  | cons y r ih =>
    rw [insertSorted]
    by_cases h : strLtB y x = true
    · rw [if_pos h, List.mem_cons, ih, List.mem_cons]
      tauto
    · rw [if_neg h, List.mem_cons, List.mem_cons]

theorem length_insertSorted (x : String) : ∀ l : List String,
    (insertSorted x l).length = l.length + 1 := by
  intro l
  induction l with
  | nil => rfl
  | cons y r ih =>
    rw [insertSorted]
    by_cases h : strLtB y x = true
    · rw [if_pos h]
      simp_arith [ih]
    · rw [if_neg h]
      simp_arith

theorem mem_sortKeys (a : String) : ∀ l : List String, a ∈ sortKeys l ↔ a ∈ l := by
  intro l
  induction l with
  | nil => simp [sortKeys]
  | cons x r ih =>
    rw [sortKeys, mem_insertSorted, ih, List.mem_cons]

theorem length_sortKeys : ∀ l : List String, (sortKeys l).length = l.length := by
  intro l
  induction l with
  | nil => rfl
  | cons x r ih =>
    rw [sortKeys, length_insertSorted, ih]
    rfl

theorem wfJ_dict (fs : Fields) (h : wfJ (.vdict fs) = true) :
    (fs.map Prod.fst).Nodup ∧ wfF fs = true := by
  have h2 : (decide ((fs.map Prod.fst).Nodup) && wfF fs) = true := h
  rw [Bool.and_eq_true] at h2
  exact ⟨of_decide_eq_true h2.1, h2.2⟩

theorem wfL_mem : ∀ (xs : List JVal), wfL xs = true → ∀ {x : JVal}, x ∈ xs → wfJ x = true := by
  intro xs
  induction xs with
  | nil => intro _ x hx; cases hx
  | cons a as ih =>
    intro h x hx
    have h2 : (wfJ a && wfL as) = true := h
    rw [Bool.and_eq_true] at h2
    rcases List.mem_cons.mp hx with rfl | h5
    · exact h2.1
    · exact ih h2.2 h5

theorem wfF_mem : ∀ (fs : Fields), wfF fs = true → ∀ {kv : PyKey × JVal}, kv ∈ fs →
    wfJ kv.2 = true := by
  intro fs
  induction fs with
  | nil => intro _ kv hkv; cases hkv
  | cons a as ih =>
    intro h kv hkv
    obtain ⟨k1, v1⟩ := a
    have h2 : (wfJ v1 && wfF as) = true := h
    rw [Bool.and_eq_true] at h2
    rcases List.mem_cons.mp hkv with rfl | h5
    · exact h2.1
    · exact ih h2.2 h5

theorem pyEqL_self : ∀ xs : List JVal, (∀ x ∈ xs, pyEq x x = true) → pyEqL xs xs = true := by
  intro xs
  induction xs with
  | nil => intro _; rfl
  | cons a as ih =>
    intro h
    show (pyEq a a && pyEqL as as) = true
    rw [h a (List.mem_cons_self a as), ih (fun x hx => h x (List.mem_cons_of_mem a hx))]
    rfl

theorem pyEqF_self_aux (a : Fields) (hn : (a.map Prod.fst).Nodup)
    (hv : ∀ kv ∈ a, pyEq kv.2 kv.2 = true) :
    ∀ fs : Fields, (∀ kv ∈ fs, kv ∈ a) → pyEqF fs a = true := by
  intro fs
  induction fs with
  | nil => intro _; rfl
  | cons kv rest ih =>
    intro hsub
    obtain ⟨k, v⟩ := kv
    have hm : (k, v) ∈ a := hsub _ (List.mem_cons_self _ _)
    have hvv : pyEq v v = true := hv (k, v) hm
    show ((match alGet a k with
      | some w => pyEq v w
      | none => false) && pyEqF rest a) = true
    rw [alGet_of_mem_nodup a hn hm]
    show (pyEq v v && pyEqF rest a) = true
    rw [hvv, ih (fun kv2 hkv2 => hsub kv2 (List.mem_cons_of_mem _ hkv2))]
    rfl

theorem pyEq_refl_bounded : ∀ n : Nat, ∀ v : JVal, sizeOf v ≤ n → wfJ v = true →
    pyEq v v = true := by
  intro n
  induction n with
  | zero => intro v hv _; exfalso; cases v <;> simp_arith at hv
  | succ n ih =>
    intro v hv hwf
    cases v with
    | vnull => rfl
    | vbool b =>
      show decide ((if b then (1:Int) else 0) * 10 ^ (0:Nat)
        = (if b then (1:Int) else 0) * 10 ^ (0:Nat)) = true
      exact decide_eq_true rfl
    | vint x =>
      show decide (x * 10 ^ (0:Nat) = x * 10 ^ (0:Nat)) = true
      exact decide_eq_true rfl
    | vfloat d =>
      show decide (d.man * 10 ^ d.exp = d.man * 10 ^ d.exp) = true
      exact decide_eq_true rfl
    | vstr s =>
      show decide (s = s) = true
      exact decide_eq_true rfl
    | vlist xs =>
      show pyEqL xs xs = true
      apply pyEqL_self
      intro x hx
      have hs := List.sizeOf_lt_of_mem hx
      have hb : sizeOf x ≤ n := by
        have : sizeOf (JVal.vlist xs) = 1 + sizeOf xs := by simp_arith
        omega
      exact ih x hb (wfL_mem xs hwf hx)
    | vdict fs =>
      obtain ⟨hnd, hwff⟩ := wfJ_dict fs hwf
      have hall : fs.all (fun kv => (alGet fs kv.1).isSome) = true := by
        rw [List.all_eq_true]
        intro kv hkv
        obtain ⟨w, hw⟩ := alGet_isSome_of_mem_keys fs kv.1 (List.mem_map_of_mem Prod.fst hkv)
        simp [hw]
      have hvv : ∀ kv ∈ fs, pyEq kv.2 kv.2 = true := by
        intro kv hkv
        obtain ⟨k, v⟩ := kv
        have hs := List.sizeOf_lt_of_mem hkv
        have hb : sizeOf v ≤ n := by
          have h1 : sizeOf (JVal.vdict fs) = 1 + sizeOf fs := by simp_arith
          have h2 : sizeOf ((k, v) : PyKey × JVal) = 1 + sizeOf k + sizeOf v := by simp_arith
          omega
        exact ih v hb (wfF_mem fs hwff hkv)
      show (fs.all (fun kv => (alGet fs kv.1).isSome) &&
        fs.all (fun kv => (alGet fs kv.1).isSome) && pyEqF fs fs) = true
      rw [hall, pyEqF_self_aux fs hnd hvv fs (fun _ h => h)]
      rfl

theorem compare_values_refl (v : JVal) (h : wfJ v = true) : compare_values v v = true := by
  cases v with
  | vnull => rfl
  | vbool b => exact pyEq_refl_bounded _ _ le_rfl h
  | vint x => exact pyEq_refl_bounded _ _ le_rfl h
  | vfloat d => exact pyEq_refl_bounded _ _ le_rfl h
  | vstr s => exact pyEq_refl_bounded _ _ le_rfl h
  | vlist xs => exact pyEq_refl_bounded _ _ le_rfl h
  | vdict fs => exact pyEq_refl_bounded _ _ le_rfl h

theorem flatten_wf_bounded : ∀ n : Nat,
    (∀ v : JVal, sizeOf v ≤ n → wfJ v = true →
      ∀ (nk : String) (kv : String × JVal), kv ∈ flattenV v nk → wfJ kv.2 = true) ∧
    (∀ fs : Fields, sizeOf fs ≤ n → wfF fs = true →
      ∀ (p : String) (kv : String × JVal), kv ∈ flattenF fs p → wfJ kv.2 = true) := by
  intro n
  induction n with
  | zero =>
    constructor
    · intro v hv; exfalso; cases v <;> simp_arith at hv
    · intro fs hfs; exfalso; cases fs <;> simp_arith at hfs
  | succ n ih =>
    constructor
    · intro v hv hwf nk kv hkv
      cases v with
      | vdict gs =>
        have h2 := wfJ_dict gs hwf
        have hb : sizeOf gs ≤ n := by
          have : sizeOf (JVal.vdict gs) = 1 + sizeOf gs := by simp_arith
          omega
        exact ih.2 gs hb h2.2 nk kv hkv
      | vnull => rcases List.mem_singleton.mp hkv with rfl; exact hwf
      | vbool b => rcases List.mem_singleton.mp hkv with rfl; exact hwf
      | vint x => rcases List.mem_singleton.mp hkv with rfl; exact hwf
      | vfloat d => rcases List.mem_singleton.mp hkv with rfl; exact hwf
      | vstr s => rcases List.mem_singleton.mp hkv with rfl; exact hwf
      | vlist xs => rcases List.mem_singleton.mp hkv with rfl; exact hwf
    · intro fs hfs hwf p kv hkv
      cases fs with
      | nil => cases hkv
      | cons kv1 rest =>
        obtain ⟨k, v⟩ := kv1
        have h2 : (wfJ v && wfF rest) = true := hwf
        rw [Bool.and_eq_true] at h2
        obtain ⟨h3, h4⟩ := h2
        have hsplit : kv ∈ flattenV v (joinKey p k) ++ flattenF rest p := hkv
        rcases List.mem_append.mp hsplit with h5 | h5
        · have hb : sizeOf v ≤ n := by
            have hA : sizeOf (((k, v) : PyKey × JVal) :: rest)
                = 1 + sizeOf ((k, v) : PyKey × JVal) + sizeOf rest := by simp_arith
            have hB : sizeOf ((k, v) : PyKey × JVal) = 1 + sizeOf k + sizeOf v := by simp_arith
            omega
          exact ih.1 v hb h3 _ kv h5
        · have hb : sizeOf rest ≤ n := by
            have hA : sizeOf (((k, v) : PyKey × JVal) :: rest)
                = 1 + sizeOf ((k, v) : PyKey × JVal) + sizeOf rest := by simp_arith
            have hB : sizeOf ((k, v) : PyKey × JVal) = 1 + sizeOf k + sizeOf v := by simp_arith
            omega
          exact ih.2 rest hb h4 p kv h5

theorem flatten_length_bounded : ∀ n : Nat,
    (∀ v : JVal, sizeOf v ≤ n → ∀ nk : String, (flattenV v nk).length = leafV v) ∧
    (∀ fs : Fields, sizeOf fs ≤ n → ∀ p : String, (flattenF fs p).length = leafF fs) := by
  intro n
  induction n with
  | zero =>
    constructor
    · intro v hv; exfalso; cases v <;> simp_arith at hv
    · intro fs hfs; exfalso; cases fs <;> simp_arith at hfs
  | succ n ih =>
    constructor
    · intro v hv nk
      cases v with
      | vdict gs =>
        have hb : sizeOf gs ≤ n := by
          have : sizeOf (JVal.vdict gs) = 1 + sizeOf gs := by simp_arith
          omega
        exact ih.2 gs hb nk
      | vnull => rfl
      | vbool b => rfl
      | vint x => rfl
      | vfloat d => rfl
      | vstr s => rfl
      | vlist xs => rfl
    · intro fs hfs p
      cases fs with
      | nil => rfl
      | cons kv1 rest =>
        obtain ⟨k, v⟩ := kv1
        show (flattenV v (joinKey p k) ++ flattenF rest p).length = leafV v + leafF rest
        rw [List.length_append]
        have hA : sizeOf (((k, v) : PyKey × JVal) :: rest)
            = 1 + sizeOf ((k, v) : PyKey × JVal) + sizeOf rest := by simp_arith
        have hB : sizeOf ((k, v) : PyKey × JVal) = 1 + sizeOf k + sizeOf v := by simp_arith
        rw [ih.1 v (by omega) (joinKey p k), ih.2 rest (by omega) p]

theorem classify_self (flat : List (String × JVal)) :
    ∀ (keys : List String) (ds : List DiffEntry) (cs : List (String × JVal)),
    (∀ k ∈ keys, ∃ v, alGet flat k = some v ∧ compare_values v v = true) →
    (classify flat flat true keys (ds, cs)).1 = ds ∧
    (classify flat flat true keys (ds, cs)).2.length = cs.length + keys.length := by
  intro keys
  induction keys with
  | nil => intro ds cs _; exact ⟨rfl, by simp [classify]⟩
  | cons k rest ih =>
    intro ds cs h
    obtain ⟨v, hv, hcv⟩ := h k (List.mem_cons_self _ _)
    have hstep : classify flat flat true (k :: rest) (ds, cs)
        = classify flat flat true rest (ds, cs ++ [(k, v)]) := by
      have hred : classify flat flat true (k :: rest) (ds, cs)
          = if (!compare_values v v) = true then
              classify flat flat true rest (ds ++ [⟨k, v, v, "different"⟩], cs)
            else if (true : Bool) = true then
              classify flat flat true rest (ds, cs ++ [(k, v)])
            else classify flat flat true rest (ds, cs) := by
        rw [classify, hv]
      rw [hred, hcv]
      simp
    rw [hstep]
    have := ih (ds) (cs ++ [(k, v)]) (fun k2 hk2 => h k2 (List.mem_cons_of_mem _ hk2))
    refine ⟨this.1, ?_⟩
    rw [this.2, List.length_append]
    simp_arith

/-- Claim C8: diffing the flattening of a well-formed profile against itself
produces no `only_in_profile1`/`only_in_profile2`/`different` entries, and
with common values requested the number of common entries equals the number
of leaf keys of the profile.  (Hypotheses: real Python dicts have distinct
keys at every level, and the flattened paths must not collide.) -/
theorem diff_self_zero_differences (fs : Fields)
    (hwf : wfJ (.vdict fs) = true)
    (hpaths : ((flattenF fs "").map Prod.fst).Nodup) :
    (compare_profiles fs fs true).differences = [] ∧
    (compare_profiles fs fs true).common.length = leafF fs := by
  have hflat : flatten_dict fs = flattenF fs "" := pyDictOfS_id _ hpaths
  have hfwf : wfF fs = true := (wfJ_dict fs hwf).2
  have hkeys : ∀ k ∈ sortedUnion
      ((flattenF fs "").map Prod.fst ++ (flattenF fs "").map Prod.fst),
      ∃ v, alGet (flattenF fs "") k = some v ∧ compare_values v v = true := by
    intro k hk
    have hk1 := (mem_sortKeys k _).mp hk
    have hk2 := ((mem_uniqKeysAux k _ []).mp hk1).1
    have hk3 : k ∈ (flattenF fs "").map Prod.fst := by
      rcases List.mem_append.mp hk2 with h | h <;> exact h
    obtain ⟨v, hv⟩ := alGet_isSome_of_mem_keys _ k hk3
    have hmem := alGet_mem _ k v hv
    have hwfv : wfJ v = true :=
      (flatten_wf_bounded (sizeOf fs)).2 fs le_rfl hfwf "" (k, v) hmem
    exact ⟨v, hv, compare_values_refl v hwfv⟩
  have hcl := classify_self (flattenF fs "")
    (sortedUnion ((flattenF fs "").map Prod.fst ++ (flattenF fs "").map Prod.fst))
    [] [] hkeys
  have hlen : (sortedUnion
      ((flattenF fs "").map Prod.fst ++ (flattenF fs "").map Prod.fst)).length
      = (flattenF fs "").length := by
    rw [sortedUnion, length_sortKeys]
    have hnu := nodup_uniqKeysAux
      ((flattenF fs "").map Prod.fst ++ (flattenF fs "").map Prod.fst) []
    have hperm : List.Perm
        (uniqKeysAux [] ((flattenF fs "").map Prod.fst ++ (flattenF fs "").map Prod.fst))
        ((flattenF fs "").map Prod.fst) := by
      refine (List.perm_ext_iff_of_nodup hnu hpaths).mpr ?_
      intro a
      rw [mem_uniqKeysAux]
      constructor
      · intro h
        rcases List.mem_append.mp h.1 with h2 | h2 <;> exact h2
      · intro h
        exact ⟨List.mem_append.mpr (Or.inl h), List.not_mem_nil a⟩
    rw [uniqKeys, hperm.length_eq, List.length_map]
  have hleaf : (flattenF fs "").length = leafF fs :=
    (flatten_length_bounded (sizeOf fs)).2 fs le_rfl ""
  constructor
  · simp only [compare_profiles, hflat]
    exact hcl.1
  · simp only [compare_profiles, hflat]
    rw [hcl.2]
    simpa using hlen.trans hleaf

/-- Witness for claim C8 at a small nested profile with three leaves. -/
theorem diff_self_zero_differences_witness :
    wfJ (.vdict [(.ks "id", .vstr "p"), (.ks "nums", .vlist [.vint 1]),
      (.ks "sec", .vdict [(.ks "a", .vint 2), (.ks "b", .vdict [])])]) = true ∧
    ((flattenF [(.ks "id", .vstr "p"), (.ks "nums", .vlist [.vint 1]),
      (.ks "sec", .vdict [(.ks "a", .vint 2), (.ks "b", .vdict [])])] "").map
        Prod.fst).Nodup ∧
    (compare_profiles [(.ks "id", .vstr "p"), (.ks "nums", .vlist [.vint 1]),
      (.ks "sec", .vdict [(.ks "a", .vint 2), (.ks "b", .vdict [])])]
      [(.ks "id", .vstr "p"), (.ks "nums", .vlist [.vint 1]),
      (.ks "sec", .vdict [(.ks "a", .vint 2), (.ks "b", .vdict [])])]
      true).differences = [] ∧
    (compare_profiles [(.ks "id", .vstr "p"), (.ks "nums", .vlist [.vint 1]),
      (.ks "sec", .vdict [(.ks "a", .vint 2), (.ks "b", .vdict [])])]
      [(.ks "id", .vstr "p"), (.ks "nums", .vlist [.vint 1]),
      (.ks "sec", .vdict [(.ks "a", .vint 2), (.ks "b", .vdict [])])]
      true).common.length
      = leafF [(.ks "id", .vstr "p"), (.ks "nums", .vlist [.vint 1]),
        (.ks "sec", .vdict [(.ks "a", .vint 2), (.ks "b", .vdict [])])] :=
  ⟨by decide, by decide,
   (diff_self_zero_differences _ (by decide) (by decide)).1,
   (diff_self_zero_differences _ (by decide) (by decide)).2⟩


